import Mathlib

/-!
Verification development for the pgmock region-matching and rewrite engine
(`pgmock/render.py`).  Python strings are modelled as `List Char`; byte
offsets as `Int` (Python slice indices may be negative); Python exceptions as
an explicit `Err` type threaded through `Except`.  Each definition below is a
shallow embedding of the correspondingly named Python function.
-/

set_option maxRecDepth 4000

namespace Pgmock

/-- Single-quote character (ASCII 39). -/
def squote : Char := Char.ofNat 39

/-- Double-quote character (ASCII 34). -/
def dquote : Char := Char.ofNat 34

/-- Newline character (ASCII 10). -/
def nlChar : Char := Char.ofNat 10

/-- Python exceptions raised by the engine, with the payloads the claims talk
about (e.g. `statementParse` carries the number of statements found, and
`valueSerialization` carries the offending value and its type name). -/
inductive Err where
  | invalidSQL
  | statementParse (found : Nat)
  | noMatch
  | multipleMatch
  | nestedMatch
  | unpatchable
  | columnsNeeded
  | columnMismatch
  | valueSerialization (valueRepr : List Char) (typeName : List Char)
  | keyError (key : List Char)
  | assertionError
  | typeErr
deriving DecidableEq, Repr

/-- Clamp a Python slice index to a list offset: a negative index counts from
the end (`s[-1:]` starts at the last element), clamping at 0; `List.take` /
`List.drop` clamp the high end. -/
def pyIdx (n : Nat) (i : Int) : Nat :=
  if i < 0 then ((n : Int) + i).toNat else i.toNat

/-- Python `s[:i]`. -/
def pyTake (s : List Char) (i : Int) : List Char := s.take (pyIdx s.length i)

/-- Python `s[i:]`. -/
def pyDrop (s : List Char) (i : Int) : List Char := s.drop (pyIdx s.length i)

/-- Python `s[a:b]`. -/
def pySlice (s : List Char) (a b : Int) : List Char :=
  (s.take (pyIdx s.length b)).drop (pyIdx s.length a)

/-- Python truthiness of an optional string (`None` and the empty string are
falsy). -/
def truthyOpt : Option (List Char) → Bool
  | none => false
  | some s => !s.isEmpty

/-- Python truthiness of an optional list argument such as `cols`. -/
def truthyCols : Option (List (List Char)) → Bool
  | none => false
  | some l => !l.isEmpty

/-- Python scalar values, as the serializer in `_to_sql_value` distinguishes
them.  Values whose Python textual form is produced outside the function
(`str(float)`, `json.dumps`, `isoformat()`, `str(uuid)`) carry that rendered
form; the time-like constructors also carry the `tzinfo` flag the serializer
inspects.  `vOther` stands for any value of an unsupported class and carries
the `repr` and type name used in the error message. -/
inductive PyVal where
  | vNone
  | vBool (b : Bool)
  | vStr (s : List Char)
  | vInt (n : Int)
  | vFloat (stringRepr : List Char)
  | vDict (jsonDumps : List Char)
  | vDatetime (iso : List Char) (tz : Bool)
  | vDate (iso : List Char)
  | vTime (iso : List Char) (tz : Bool)
  | vUUID (stringRepr : List Char)
  | vOther (valueRepr : List Char) (typeName : List Char)
deriving DecidableEq, Repr

/-- `"'%s'" % v.replace("'", "''")`: double every single quote in `s`. -/
def doubleSquotes : List Char → List Char
  | [] => []
  | c :: rest =>
    if c = squote then squote :: squote :: doubleSquotes rest
    else c :: doubleSquotes rest

/-- Wrap a rendered value in single quotes. -/
def quoteWrap (s : List Char) : List Char := squote :: s ++ [squote]

/-- The `PG_VALUE_SERIALIZERS` table: `some rendered` when the value's class
has a serializer, `none` otherwise (`None` and unsupported classes). -/
def pgValueSerializers : PyVal → Option (List Char)
  | .vBool b => some (if b then "TRUE".data else "FALSE".data)
  | .vStr s => some (quoteWrap (doubleSquotes s))
  | .vInt n => some (toString n).data
  | .vFloat r => some r
  | .vDict d => some (quoteWrap (doubleSquotes d))
  | .vDatetime iso _ => some (quoteWrap iso)
  | .vDate iso => some (quoteWrap iso)
  | .vTime iso _ => some (quoteWrap iso)
  | .vUUID r => some (quoteWrap r)
  | _ => none

/-- The `PG_TYPES` table of inferred cast types. -/
def pgTypes : PyVal → Option (List Char)
  | .vDict _ => some "JSON".data
  | .vDatetime _ tz => some (if tz then "TIMESTAMPTZ".data else "TIMESTAMP".data)
  | .vDate _ => some "DATE".data
  | .vTime _ tz => some (if tz then "TIMETZ".data else "TIME".data)
  | .vUUID _ => some "UUID".data
  | _ => none

/-- Shallow embedding of `_to_sql_value(val, col_type)`: serialize one scalar
into a Postgres VALUES fragment.  Mirrors the source: the inferred cast is
looked up only when `col_type` is falsy; the serializer table is consulted
first, then the `val is None` case, otherwise `ValueSerializationError`; a
truthy final `col_type` is appended as `::type` to whatever was serialized. -/
def toSqlValue (val : PyVal) (colType : Option (List Char)) : Except Err (List Char) := do
  let colType1 :=
    if !truthyOpt colType ∧ (pgTypes val).isSome then pgTypes val else colType
  let serialized ←
    match pgValueSerializers val with
    | some s => pure s
    | none =>
      match val with
      | .vNone => pure "null".data
      | .vOther r t => Except.error (.valueSerialization r t)
      | _ => Except.error (.valueSerialization [] [])
  match colType1 with
  | some ct => if !ct.isEmpty then pure (serialized ++ "::".data ++ ct) else pure serialized
  | none => pure serialized

/-- Index of the leftmost occurrence of `pat` in `s` (Python `str.find` /
the split point of `re.split` on a literal alternative). -/
def findSubIdx (s pat : List Char) : Option Nat :=
  match s with
  | [] => if pat.isEmpty then some 0 else none
  | _ :: rest =>
    if pat.isPrefixOf s then some 0
    else (findSubIdx rest pat).map (· + 1)

/-- Python `s.split(sep)` for a non-empty literal separator, keeping empty
parts (`";".split(";") == ["", ""]`), fuelled for structural recursion (each
step consumes at least one character, so fuel `s.length + 1` is never
exhausted).  An empty separator is illegal in Python; here it returns
`[s]`. -/
def pySplitF (sep : List Char) : Nat → List Char → List (List Char)
  | 0, s => [s]
  | fuel + 1, s =>
    if sep.isEmpty then [s]
    else
      match findSubIdx s sep with
      | none => [s]
      | some i => s.take i :: pySplitF sep fuel (s.drop (i + sep.length))

def pySplit (sep : List Char) (s : List Char) : List (List Char) :=
  pySplitF sep (s.length + 1) s

/-- `sep.join(parts)`. -/
def joinWith (sep : List Char) : List (List Char) → List Char
  | [] => []
  | [x] => x
  | x :: y :: rest => x ++ sep ++ joinWith sep (y :: rest)

/-- `None if '::' not in col else col.split('::')[1]`. -/
def colTypeOf (col : List Char) : Option (List Char) :=
  if (findSubIdx col "::".data).isNone then none
  else some ((pySplit "::".data col).getD 1 [])

/-- `col if '::' not in col else col.split('::')[0]`. -/
def colNameOf (col : List Char) : List Char :=
  if (findSubIdx col "::".data).isNone then col
  else (pySplit "::".data col).getD 0 []

/-- Shallow embedding of `_row_to_sql_values(row, col_types)`: serialize an
entire row to a parenthesized VALUES tuple, padding short rows with `None`
when column types are given; `zip` truncates rows longer than `col_types`. -/
def rowToSqlValues (row : List PyVal) (colTypes : List (Option (List Char))) :
    Except Err (List Char) := do
  let row :=
    if !colTypes.isEmpty ∧ colTypes.length > row.length then
      row ++ List.replicate (colTypes.length - row.length) PyVal.vNone
    else row
  let vals ←
    if !colTypes.isEmpty then
      (row.zip colTypes).mapM (fun p => toSqlValue p.1 p.2)
    else
      row.mapM (fun v => toSqlValue v none)
  pure ('(' :: joinWith [','] vals ++ [')'])

/-- Shallow embedding of `_gen_values(rows, cols, alias, select_all_from)`.
Rows are modelled as positional lists only, so the dict-row conversion branch
(`_convert_dict_rows_to_lists`) is identically skipped; no claim depends on
it. -/
def genValues (rows : List (List PyVal)) (cols : Option (List (List Char)))
    (aliasArg : Option (List Char)) (selectAllFrom : Bool) : Except Err (List Char) := do
  let emptyValues := rows.isEmpty
  let rows := if rows.isEmpty then [[]] else rows
  let cols := cols.getD []
  let colTypes := cols.map colTypeOf
  let colNames := cols.map colNameOf
  let vals ← rows.mapM (fun r => rowToSqlValues r colTypes)
  let values := "VALUES ".data ++ joinWith [','] vals
  let values := if emptyValues then values ++ " LIMIT 0".data else values
  let values :=
    match aliasArg with
    | some a =>
      if !a.isEmpty then
        let escaped := colNames.map (fun c => dquote :: c ++ [dquote])
        '(' :: values ++ ") AS ".data ++ a ++ '(' :: joinWith [','] escaped ++ [')']
      else values
    | none => values
  pure (if selectAllFrom then "SELECT * FROM ".data ++ values else values)

/-- One step of `split_regex.split(sql, 1)` for an alternation of literal
tokens: find the leftmost position where some token matches (earlier tokens
in the list win at equal positions, as in regex alternation) and return
`(prefix, token, rest)`; `none` when no token occurs. -/
def splitOnce (pats : List (List Char)) : List Char → Option (List Char × List Char × List Char)
  | [] => none
  | c :: rest =>
    match pats.find? (fun p => p.isPrefixOf (c :: rest)) with
    | some p => some ([], p, (c :: rest).drop p.length)
    | none => (splitOnce pats rest).map (fun pr => (c :: pr.1, pr.2.1, pr.2.2))

/-- The `_SPLITTER_REGEXES` dict.  The key `None` maps to the opener
alternation `(--|['"]|/\*)`; the openers `--`, `'` and `/*` map to their
closers.  There is no entry for the `"` opener: looking it up is a
`KeyError`, modelled as `none`. -/
def splitterRegexes (key : Option (List Char)) : Option (List (List Char)) :=
  match key with
  | none => some ["--".data, [squote], [dquote], "/*".data]
  | some k =>
    if k = "--".data then some [[nlChar]]
    else if k = [squote] then some [[squote]]
    else if k = "/*".data then some ["*/".data]
    else none

/-- The `while sql:` loop of `_strip_comments_and_string_literals`, carrying
the accumulated `stripped_sql` and `previous_split_token`, fuelled for
structural recursion (every iteration consumes at least the split token, so
fuel `sql.length + 1` is never exhausted).  Inside a discard region the
prefix is blanked and the closing token kept; outside, prefix and opening
token are kept.  When no token occurs, the remainder is blanked if a region
is open, kept otherwise.  Looking up a token with no dict entry (the `"`
opener) is a `KeyError`. -/
def stripLoopF : Nat → List Char → Option (List Char) → List Char → Except Err (List Char)
  | 0, strippedAcc, _, sqlRest => .ok (strippedAcc ++ sqlRest)
  | fuel + 1, strippedAcc, prev, sql =>
    if sql.isEmpty then .ok strippedAcc
    else
      match splitterRegexes prev with
      | none => .error (.keyError (prev.getD []))
      | some pats =>
        match splitOnce pats sql with
        | none =>
          if prev.isSome then .ok (strippedAcc ++ List.replicate sql.length ' ')
          else .ok (strippedAcc ++ sql)
        | some (pre, tok, rest) =>
          if prev.isSome then
            stripLoopF fuel (strippedAcc ++ List.replicate pre.length ' ' ++ tok) none rest
          else
            stripLoopF fuel (strippedAcc ++ pre ++ tok) (some tok) rest

/-- Shallow embedding of `_strip_comments_and_string_literals(sql)`. -/
def stripCommentsAndStringLiterals (sql : List Char) : Except Err (List Char) :=
  stripLoopF (sql.length + 1) [] none sql

/-- The `for char in sql[...]` loop of `_find_enclosing_paren`: returns the
index (within the scanned slice) of the breaking character, or `none` when
the loop exhausts the slice (the `for`/`else` branch). -/
def findParenLoop (pstart pend : Char) (unmatched : Nat) : List Char → Option Nat
  | [] => none
  | c :: rest =>
    if c = pstart then (findParenLoop pstart pend (unmatched + 1) rest).map (· + 1)
    else if c = pend then
      if unmatched ≠ 0 then (findParenLoop pstart pend (unmatched - 1) rest).map (· + 1)
      else some 0
    else (findParenLoop pstart pend unmatched rest).map (· + 1)

/-- The Python step-slice `sql[paren_idx + direction::direction]`: forwards it
drops `paren_idx + 1` characters; backwards it walks `paren_idx - 1 .. 0`,
except that for `paren_idx = 0` the start index `-1` wraps to the LAST
character, so the whole string is scanned in reverse.  Only the directions 1
and -1 occur in the source; any other value is treated as -1. -/
def scanSlice (sql : List Char) (parenIdx : Nat) (direction : Int) : List Char :=
  if direction = 1 then sql.drop (parenIdx + 1)
  else if parenIdx = 0 then sql.reverse
  else (sql.take parenIdx).reverse

/-- Shallow embedding of `_find_enclosing_paren(sql, paren_idx, direction)`. -/
def findEnclosingParen (sql : List Char) (parenIdx : Nat) (direction : Int) :
    Except Err Int :=
  let pstart := if direction = 1 then '(' else ')'
  let pend := if direction = 1 then ')' else '('
  match findParenLoop pstart pend 0 (scanSlice sql parenIdx direction) with
  | none => .error .invalidSQL
  | some i => .ok ((parenIdx : Int) + ((i : Int) + 1) * direction)

/-- Specification-side description of the paren scan: the first position `k`
of the scanned slice holding the closing character with the two paren counts
balanced over the strict prefix (depth 0). -/
def firstBalanced (pstart pend : Char) (u : Nat) (cs : List Char) : Option Nat :=
  (List.range cs.length).find?
    (fun k => cs.getD k ' ' == pend &&
      (cs.take k).count pend == u + (cs.take k).count pstart)

/-- `PatchParams` value object. -/
structure PatchParams where
  patch_alias : Option (List Char)
  select_all_from : Bool
  orig_alias : Option (List Char)
deriving DecidableEq, Repr

/-- The `PatchParams.__init__` defaulting: `orig_alias = orig_alias or
patch_alias`. -/
def PatchParams.make (pa : Option (List Char)) (saf : Bool) (oa : Option (List Char)) :
    PatchParams :=
  ⟨pa, saf, if truthyOpt oa then oa else pa⟩

/-- A `View` into the SQL blob: primary `bounds` half-open range, optional
`patch` range, and patch parameters.  Offsets are `Int` since Python slice
endpoints can be negative. -/
structure View where
  bstart : Int
  bstop : Int
  patch : Option (Int × Int)
  patch_params : PatchParams
deriving DecidableEq, Repr

/-- `View.from_offset`: shift bounds and patch by an offset. -/
def View.from_offset (v : View) (offset : Int) : View :=
  ⟨v.bstart + offset, v.bstop + offset,
   v.patch.map (fun p => (p.1 + offset, p.2 + offset)), v.patch_params⟩

/-- `RenderSQL`: raw SQL plus the search text (the stripped SQL when safe
mode is on and the stripped text is non-empty, else the raw SQL —
`self.stripped_sql or self.raw_sql`).  The constructor's
`assert len(stripped) == len(sql)` and the `KeyError` the stripping pass can
raise make construction fallible. -/
structure RenderSQL where
  stripped_sql : Option (List Char)
  raw_sql : List Char
  search_sql : List Char
deriving DecidableEq, Repr

def RenderSQL.make (safeMode : Bool) (sql : List Char) : Except Err RenderSQL :=
  if safeMode then do
    let st ← stripCommentsAndStringLiterals sql
    if st.length = sql.length then
      .ok ⟨some st, sql, if st.isEmpty then sql else st⟩
    else .error .assertionError
  else .ok ⟨none, sql, sql⟩

/-- A `Renderer`: the rendering SQL plus the current ordered set of views. -/
structure Renderer where
  rendering_sql : RenderSQL
  views : List View
deriving DecidableEq, Repr

/-- The nested-match scan of `Renderer.__init__`: succeed exactly when no
view starts before the previous one stops. -/
def nestedOK : List View → Bool
  | [] => true
  | [_] => true
  | a :: b :: rest => !(b.bstart < a.bstop) && nestedOK (b :: rest)

/-- `Renderer.__init__` with an existing `RenderSQL` and an explicit view
list: raises `NestedMatchError` when any views are nested/overlapping. -/
def Renderer.make (rs : RenderSQL) (views : List View) : Except Err Renderer :=
  if nestedOK views then .ok ⟨rs, views⟩ else .error .nestedMatch

/-- `Renderer(sql)` on a plain string: build the `RenderSQL` (stripping under
safe mode) and the initial whole-text view. -/
def Renderer.ofSql (safeMode : Bool) (sql : List Char) : Except Err Renderer := do
  let rs ← RenderSQL.make safeMode sql
  Renderer.make rs [⟨0, sql.length, none, PatchParams.make none false none⟩]

/-- `self.raw_sql`. -/
def Renderer.raw (r : Renderer) : List Char := r.rendering_sql.raw_sql

/-- The `view` property: the single view, or `MultipleMatchError` when the
match set does not have exactly one view. -/
def Renderer.view (r : Renderer) : Except Err View :=
  match r.views with
  | [v] => .ok v
  | _ => .error .multipleMatch

/-- The `sql_view` property: the raw SQL restricted to the single view. -/
def Renderer.sql_view (r : Renderer) : Except Err (List Char) := do
  let v ← r.view
  pure (pySlice r.raw v.bstart v.bstop)

/-- The `search_view` property: the search SQL restricted to the single
view. -/
def Renderer.search_view (r : Renderer) : Except Err (List Char) := do
  let v ← r.view
  pure (pySlice r.rendering_sql.search_sql v.bstart v.bstop)

/-- `sum(len(part) for part in parts)`. -/
def sumLens (ps : List (List Char)) : Nat := (ps.map List.length).sum

/-- Shallow embedding of `Renderer.statement(start, end)`: split the search
view on `;`, default `end = end or start + 1` (so an explicit `end = 0` is
falsy and also defaults), assert `end >= start` and `start >= 0`, range-check
against the number of parts (`StatementParseError` naming that count), then
build the view spanning the selected statements, offset to the current
view's start. -/
def Renderer.statement (r : Renderer) (start : Int) (endOpt : Option Int) :
    Except Err Renderer := do
  let sql ← r.search_view
  let parts := pySplit [';'] sql
  let e : Int := match endOpt with
    | none => start + 1
    | some v => if v = 0 then start + 1 else v
  if !(e ≥ start) then .error .assertionError
  else if !(start ≥ 0) then .error .assertionError
  else if start ≥ (parts.length : Int) ∨ e > (parts.length : Int) then
    .error (.statementParse parts.length)
  else
    let stmtStart : Int := (sumLens (parts.take start.toNat) : Nat) + start
    let stmtEnd : Int :=
      stmtStart + (sumLens ((parts.drop start.toNat).take (e - start).toNat) : Nat)
        + (e - start - 1)
    let v ← r.view
    Renderer.make r.rendering_sql
      [(View.mk stmtStart stmtEnd none (PatchParams.make none false none)).from_offset v.bstart]

/-- Python regex `\w` (ASCII subset; inputs in this development are ASCII). -/
def isPyWordChar (c : Char) : Bool := c.isAlphanum || c = Char.ofNat 95

/-- Python regex `\s` (ASCII subset). -/
def isPySpace (c : Char) : Bool :=
  c = ' ' || c = Char.ofNat 9 || c = nlChar || c = Char.ofNat 13 ||
  c = Char.ofNat 12 || c = Char.ofNat 11

/-- Case-insensitive literal match of `pat` at the head of `s`, returning the
remainder (models a `re.escape`d literal under `re.IGNORECASE`). -/
def ciPrefixDrop (pat : List Char) (s : List Char) : Option (List Char) :=
  match pat, s with
  | [], rest => some rest
  | _ :: _, [] => none
  | p :: ps, c :: cs => if p.toLower = c.toLower then ciPrefixDrop ps cs else none

/-- Greedy `\s*`: count and drop leading whitespace. -/
def skipSpaces : List Char → Nat × List Char
  | [] => (0, [])
  | c :: rest =>
    if isPySpace c then
      let (n, r) := skipSpaces rest
      (n + 1, r)
    else (0, c :: rest)

/-- The negative lookahead `(?!\w)`. -/
def noWordAhead : List Char → Bool
  | [] => true
  | c :: _ => !isPyWordChar c

theorem ciPrefixDrop_length {pat s r : List Char} (h : ciPrefixDrop pat s = some r) :
    r.length + pat.length = s.length := by
  induction pat generalizing s r with
  | nil => simp [ciPrefixDrop] at h; simp [h]
  | cons p ps ih =>
    cases s with
    | nil => simp [ciPrefixDrop] at h
    | cons c cs =>
      simp only [ciPrefixDrop] at h
      split at h
      · have := ih h
        simp only [List.length_cons]
        omega
      · exact absurd h (by simp)

theorem skipSpaces_length (s : List Char) :
    (skipSpaces s).2.length + (skipSpaces s).1 = s.length := by
  induction s with
  | nil => simp [skipSpaces]
  | cons c rest ih =>
    simp only [skipSpaces]
    split
    · simpa using by omega
    · simp

/-- The `(as\s+)?ALIAS(?!\w)` part of the subquery pattern, matched against
the text after `\)\s*`: the optional `as\s+` branch is tried greedily first,
falling back to the bare alias, as regex backtracking does.  Returns the
number of characters consumed. -/
def subqAliasPart (aliasA : List Char) (s : List Char) : Option Nat :=
  let withAs : Option Nat :=
    match ciPrefixDrop "as".data s with
    | none => none
    | some r2 =>
      let ws2 := skipSpaces r2
      if ws2.1 = 0 then none
      else
        match ciPrefixDrop aliasA ws2.2 with
        | none => none
        | some r4 => if noWordAhead r4 then some (2 + ws2.1 + aliasA.length) else none
  match withAs with
  | some n => some n
  | none =>
    match ciPrefixDrop aliasA s with
    | none => none
    | some r4 => if noWordAhead r4 then some aliasA.length else none

/-- Matcher for the subquery pattern `\)\s*(as\s+)?ALIAS(?!\w)` at the head
of `s`.  Returns `(0, matchLength)`; the first component is an unused
payload shared with the table matcher's `finditer`. -/
def subqMatchAt (aliasA : List Char) (s : List Char) : Option (Nat × Nat) :=
  match s with
  | [] => none
  | c :: rest =>
    if c = ')' then
      let ws := skipSpaces rest
      (subqAliasPart aliasA ws.2).map (fun k => (0, 1 + ws.1 + k))
    else none


/-- Matcher for the no-alias table pattern
`(?P<pre>(from|join)\s+)TABLE(?!\w)` at the head of `s` (the aliased variant
of `Renderer.table` is not modelled; no claim depends on it).  Returns
`(preLength, matchLength)`. -/
def tableMatchTail (tbl : List Char) (r1 : List Char) : Option Nat :=
  let ws := skipSpaces r1
  if ws.1 = 0 then none
  else
    match ciPrefixDrop tbl ws.2 with
    | none => none
    | some r4 => if noWordAhead r4 then some ws.1 else none

def tableMatchAt (tbl : List Char) (s : List Char) : Option (Nat × Nat) :=
  let kw :=
    match ciPrefixDrop "from".data s with
    | some r => some r
    | none => ciPrefixDrop "join".data s
  match kw with
  | none => none
  | some r1 => (tableMatchTail tbl r1).map (fun w => (4 + w, 4 + w + tbl.length))

/-- `re.finditer` for a pattern matcher that reports a payload and the match
length at a position: scan left to right, emit `(start, payload, stop)` for
each match, and resume at the match end.  Fuelled for structural recursion
(the matchers here always consume at least one character, so fuel
`s.length + 1` is never exhausted). -/
def finditerF (matchAt : List Char → Option (Nat × Nat)) :
    Nat → Nat → List Char → List (Nat × Nat × Nat)
  | 0, _, _ => []
  | _ + 1, _, [] => []
  | fuel + 1, i, c :: rest =>
    match matchAt (c :: rest) with
    | some p => (i, p.1, i + p.2) :: finditerF matchAt fuel (i + p.2) ((c :: rest).drop p.2)
    | none => finditerF matchAt fuel (i + 1) rest

def finditer (matchAt : List Char → Option (Nat × Nat)) (s : List Char) :
    List (Nat × Nat × Nat) :=
  finditerF matchAt (s.length + 1) 0 s

/-- Shallow embedding of `Renderer.subquery(alias)`: find every
`\)\s*(as\s+)?alias(?!\w)` occurrence in the search view, walk backward to
the balancing left paren, and build views (bounds inside the parens, patch
from the left paren through the alias end) at original-text offsets via
`from_offset`. -/
def Renderer.subquery (r : Renderer) (aliasA : List Char) : Except Err Renderer := do
  let sql ← r.search_view
  let ms := finditer (subqMatchAt aliasA) sql
  if ms.isEmpty then .error .noMatch
  else do
    let v ← r.view
    let views ← ms.mapM (fun m => do
      let rightParen := m.1
      let aliasEnd := m.2.2
      let leftParen ← findEnclosingParen sql rightParen (-1)
      pure ((View.mk (leftParen + 1) rightParen
        (some (leftParen, (aliasEnd : Int)))
        (PatchParams.make (some aliasA) false none)).from_offset v.bstart))
    Renderer.make r.rendering_sql views

/-- Shallow embedding of `Renderer.table(table)` (no alias): find every
`(from|join)\s+table(?!\w)` occurrence in the search view; bounds = patch =
the table-name span; `patch_alias` strips a schema prefix; `orig_alias` is
the full name.  NOTE (as in the source): the resulting renderer is rebuilt
from the search view string itself (`Renderer(sql, views)`), not from
`self.rendering_sql`, and the views are not shifted by `from_offset`. -/
def Renderer.table (r : Renderer) (safeMode : Bool) (tbl : List Char) :
    Except Err Renderer := do
  let sql ← r.search_view
  let ms := finditer (tableMatchAt tbl) sql
  if ms.isEmpty then .error .noMatch
  else do
    let views := ms.map (fun m =>
      let bstart : Int := m.1 + m.2.1
      let bstop : Int := m.2.2
      let patchAlias :=
        if (findSubIdx tbl ".".data).isNone then tbl
        else (pySplit ".".data tbl).getD 1 []
      View.mk bstart bstop (some (bstart, bstop))
        (PatchParams.make (some patchAlias) false (some tbl)))
    let rs ← RenderSQL.make safeMode sql
    Renderer.make rs views

/-- `_get_end_statement(sql, start)`: `sql.find(';', start)`, or `len(sql)`
when no semicolon follows. -/
def getEndStatement (sql : List Char) (start : Nat) : Nat :=
  match (sql.drop start).findIdx? (fun c => c == ';') with
  | some k => start + k
  | none => sql.length

/-- Greedy-backtracking `.*\)` followed by a tail pattern: `.` cannot cross
a newline, so try every `)` inside the prefix before the first newline,
rightmost first (regex `.*` is greedy), and return the total characters
consumed (through the `)` and the tail) for the first that works. -/
def parenCloseScan (tail : List Char → Option Nat) (s : List Char) : Option Nat :=
  let line := s.takeWhile (fun c => c ≠ nlChar)
  (List.range line.length).reverse.findSome? (fun i =>
    if line.getD i ' ' = ')' then
      (tail (s.drop (i + 1))).map (fun t => i + 1 + t)
    else none)

/-- The `(?:with\s+|,\s*)` lead of the CTE pattern: characters consumed and
the remainder.  Whitespace is greedy (aliases beginning with whitespace are
not modelled, as in the other matchers). -/
def cteLead (s : List Char) : Option (Nat × List Char) :=
  match ciPrefixDrop "with".data s with
  | some r1 =>
    let ws := skipSpaces r1
    if ws.1 = 0 then none else some (4 + ws.1, ws.2)
  | none =>
    match s with
    | ',' :: rest =>
      let ws := skipSpaces rest
      some (1 + ws.1, ws.2)
    | _ => none

/-- The `\s*as\s*\(` tail of the CTE pattern after the scanned `)`. -/
def cteTail (s : List Char) : Option Nat :=
  let ws := skipSpaces s
  match ciPrefixDrop "as".data ws.2 with
  | none => none
  | some r =>
    let ws2 := skipSpaces r
    match ws2.2 with
    | '(' :: _ => some (ws.1 + 2 + ws2.1 + 1)
    | _ => none

/-- The `(?:\s*\(.*\)\s*|\s+)as\s*\(` part of the CTE pattern after the
alias: the column-list branch is tried first, as regex alternation does,
with `.*` greedy inside the line. -/
def cteAfterAlias (s : List Char) : Option Nat :=
  let branchA : Option Nat :=
    let ws := skipSpaces s
    match ws.2 with
    | '(' :: r2 => (parenCloseScan cteTail r2).map (fun k => ws.1 + 1 + k)
    | _ => none
  match branchA with
  | some n => some n
  | none =>
    let ws := skipSpaces s
    if ws.1 = 0 then none
    else
      match ciPrefixDrop "as".data ws.2 with
      | none => none
      | some r =>
        let ws2 := skipSpaces r
        match ws2.2 with
        | '(' :: _ => some (ws.1 + 2 + ws2.1 + 1)
        | _ => none

/-- Matcher for the CTE pattern
`(?:with\s+|,\s*)ALIAS(?:\s*\(.*\)\s*|\s+)as\s*\(` at the head of `s`.
Returns `(0, matchLength)`. -/
def cteMatchAt (aliasA : List Char) (s : List Char) : Option (Nat × Nat) :=
  match cteLead s with
  | none => none
  | some (n0, r0) =>
    match ciPrefixDrop aliasA r0 with
    | none => none
    | some r1 => (cteAfterAlias r1).map (fun k => (0, n0 + aliasA.length + k))

/-- Shallow embedding of `Renderer.cte(alias)`: find every occurrence of the
CTE pattern in the search view, walk forward from the pattern's trailing
left paren to its balancing right paren, and build views (bounds = patch =
inside the parens, patch alias `pgmock` with `select_all_from`) at
original-text offsets via `from_offset`. -/
def Renderer.cte (r : Renderer) (aliasA : List Char) : Except Err Renderer := do
  let sql ← r.search_view
  let ms := finditer (cteMatchAt aliasA) sql
  if ms.isEmpty then .error .noMatch
  else do
    let v ← r.view
    let views ← ms.mapM (fun m => do
      let leftParen := m.2.2 - 1
      let rightParen ← findEnclosingParen sql leftParen 1
      pure ((View.mk ((leftParen : Int) + 1) rightParen
        (some ((leftParen : Int) + 1, rightParen))
        (PatchParams.make (some "pgmock".data) true none)).from_offset v.bstart))
    Renderer.make r.rendering_sql views

/-- Matcher for the pattern `insert\s+into\s+TABLE(?:\s*\(|\s+[\w\/\-])` at
the head of `s`.  Returns `(0, matchLength)`. -/
def insertMatchAt (tbl : List Char) (s : List Char) : Option (Nat × Nat) :=
  match ciPrefixDrop "insert".data s with
  | none => none
  | some r1 =>
    let ws1 := skipSpaces r1
    if ws1.1 = 0 then none
    else
      match ciPrefixDrop "into".data ws1.2 with
      | none => none
      | some r2 =>
        let ws2 := skipSpaces r2
        if ws2.1 = 0 then none
        else
          match ciPrefixDrop tbl ws2.2 with
          | none => none
          | some r3 =>
            let branchA : Option Nat :=
              let ws3 := skipSpaces r3
              match ws3.2 with
              | '(' :: _ => some (ws3.1 + 1)
              | _ => none
            let tailLen : Option Nat :=
              match branchA with
              | some k => some k
              | none =>
                let ws3 := skipSpaces r3
                if ws3.1 = 0 then none
                else
                  match ws3.2 with
                  | c :: _ =>
                    if isPyWordChar c || c = '/' || c = '-' then some (ws3.1 + 1) else none
                  | [] => none
            tailLen.map (fun k => (0, 6 + ws1.1 + 4 + ws2.1 + tbl.length + k))

/-- Shallow embedding of `Renderer.insert_into(table)`: find every
`insert\s+into\s+table(?:\s*\(|\s+[\w\/\-])` occurrence in the search view;
the view spans from the match start to the end of the statement, and the
patch range starts at the match's last character — moved past the balancing
right paren when that character is a `(` whose closing paren is followed by
non-whitespace before the statement end (a column list rather than a
parenthesised statement).  Views are shifted to original-text offsets via
`from_offset`. -/
def Renderer.insert_into (r : Renderer) (tbl : List Char) : Except Err Renderer := do
  let sql ← r.search_view
  let ms := finditer (insertMatchAt tbl) sql
  if ms.isEmpty then .error .noMatch
  else do
    let v ← r.view
    let views ← ms.mapM (fun m => do
      let insertStart := m.1
      let insertEnd0 := m.2.2 - 1
      let endIdx := getEndStatement sql insertEnd0
      let insertEnd : Int ←
        if sql.getD insertEnd0 ' ' = '(' then do
          let rp ← findEnclosingParen sql insertEnd0 1
          let rightParen := rp + 1
          if (pySlice sql rightParen (endIdx : Int)).any (fun c => !isPySpace c) then
            pure rightParen
          else pure ((insertEnd0 : Nat) : Int)
        else pure ((insertEnd0 : Nat) : Int)
      pure ((View.mk (insertStart : Int) (endIdx : Int)
        (some (insertEnd, (endIdx : Int)))
        (PatchParams.make none false none)).from_offset v.bstart))
    Renderer.make r.rendering_sql views

/-- The `\s*as` tail of the create-table-as pattern after the scanned
`)`. -/
def ctaTail (s : List Char) : Option Nat :=
  let ws := skipSpaces s
  match ciPrefixDrop "as".data ws.2 with
  | none => none
  | some _ => some (ws.1 + 2)

/-- The `(?:\s*\(.*\)\s*|\s+)as` part of the create-table-as pattern after
the table name: the column-list branch first, `.*` greedy inside the
line. -/
def ctaAfterTable (s : List Char) : Option Nat :=
  let branchA : Option Nat :=
    let ws := skipSpaces s
    match ws.2 with
    | '(' :: r2 => (parenCloseScan ctaTail r2).map (fun k => ws.1 + 1 + k)
    | _ => none
  match branchA with
  | some n => some n
  | none =>
    let ws := skipSpaces s
    if ws.1 = 0 then none
    else
      match ciPrefixDrop "as".data ws.2 with
      | none => none
      | some _ => some (ws.1 + 2)

/-- Matcher for `create\s+table\s+TABLE(?:\s*\(.*\)\s*|\s+)as` at the head
of `s`.  Returns `(0, matchLength)`. -/
def ctaMatchAt (tbl : List Char) (s : List Char) : Option (Nat × Nat) :=
  match ciPrefixDrop "create".data s with
  | none => none
  | some r1 =>
    let ws1 := skipSpaces r1
    if ws1.1 = 0 then none
    else
      match ciPrefixDrop "table".data ws1.2 with
      | none => none
      | some r2 =>
        let ws2 := skipSpaces r2
        if ws2.1 = 0 then none
        else
          match ciPrefixDrop tbl ws2.2 with
          | none => none
          | some r3 =>
            (ctaAfterTable r3).map (fun k => (0, 6 + ws1.1 + 5 + ws2.1 + tbl.length + k))

/-- Shallow embedding of `Renderer.create_table_as(table)`: find every
`create\s+table\s+table(?:\s*\(.*\)\s*|\s+)as` occurrence in the search
view; the view spans from the match start to the end of the statement and
the patch range from the match end to the statement end, with patch alias
`pgmock` and `select_all_from`.  Views are shifted to original-text offsets
via `from_offset`. -/
def Renderer.create_table_as (r : Renderer) (tbl : List Char) :
    Except Err Renderer := do
  let sql ← r.search_view
  let ms := finditer (ctaMatchAt tbl) sql
  if ms.isEmpty then .error .noMatch
  else do
    let v ← r.view
    let views := ms.map (fun m =>
      let createStart := m.1
      let ctaEnd := m.2.2
      let endIdx := getEndStatement sql createStart
      (View.mk (createStart : Int) (endIdx : Int)
        (some ((ctaEnd : Int), (endIdx : Int)))
        (PatchParams.make (some "pgmock".data) true none)).from_offset v.bstart)
    Renderer.make r.rendering_sql views

/-- `str.rjust(width)`: left-pad with spaces to the given width. -/
def rjust (s : List Char) (width : Nat) : List Char :=
  List.replicate (width - s.length) ' ' ++ s

/-- `re.sub(r'\b' + orig + r'\.', repl, s)` for a literal `orig` followed by
a dot: replace every occurrence at a word boundary, scanning left to right
over non-overlapping matches, fuelled for structural recursion (each step
consumes at least one character, so fuel `s.length + 1` is never exhausted).
`prevWord` says whether the preceding
character of the original string is a word character (false at the start;
after a match the preceding character is the matched `.`, not a word
character). -/
def replaceAliasF (origDot : List Char) (repl : List Char) :
    Nat → Bool → List Char → List Char
  | 0, _, s => s
  | _ + 1, _, [] => []
  | fuel + 1, prevWord, c :: rest =>
    if origDot.isPrefixOf (c :: rest) ∧ origDot ≠ [] ∧ (prevWord ≠ isPyWordChar c) then
      repl ++ replaceAliasF origDot repl fuel false ((c :: rest).drop origDot.length)
    else c :: replaceAliasF origDot repl fuel (isPyWordChar c) rest

def replaceAlias (origDot : List Char) (repl : List Char) (s : List Char) : List Char :=
  replaceAliasF origDot repl (s.length + 1) false s

/-- The alias-rewrite step at the end of each patch iteration: when the
configuration flag is on, the view has a truthy patch alias, and the original
alias differs, `assert len(orig) >= len(patch)` then substitute
`\borig\.` with the patch alias right-justified to the original's length
plus a dot.  `len(None)` would be a Python `TypeError`. -/
def aliasRewriteStep (replaceAliases : Bool) (pp : PatchParams) (s : List Char) :
    Except Err (List Char) :=
  if replaceAliases ∧ truthyOpt pp.patch_alias ∧ pp.orig_alias ≠ pp.patch_alias then
    match pp.orig_alias, pp.patch_alias with
    | some o, some p =>
      if o.length < p.length then .error .assertionError
      else .ok (replaceAlias (o ++ ['.']) (rjust p o.length ++ ['.']) s)
    | _, _ => .error .typeErr
  else .ok s

/-- The `for rendered_view in rendered.views` loop of `Renderer.patch`:
check patchability, generate the VALUES expression, splice it into the
running text with a single space prepended (offsets corrected by the running
`adjustment`), optionally rewrite alias references, and accumulate the
length delta.  `selOffset` is `some (self.view.bounds.start)` when a
selector was given (the view offsets are then relative to `self.sql_view`),
`none` otherwise. -/
def patchGo (rows : List (List PyVal)) (cols : Option (List (List Char)))
    (replaceAliases : Bool) (selOffset : Option Int) :
    List View → List Char → Int → Except Err (List Char × Int)
  | [], patched, adj => .ok (patched, adj)
  | v :: rest, patched, adj =>
    match v.patch with
    | none => .error .unpatchable
    | some (ps0, pe0) =>
      if truthyOpt v.patch_params.patch_alias ∧ !truthyCols cols then .error .columnsNeeded
      else do
        let values ← genValues rows cols v.patch_params.patch_alias
          v.patch_params.select_all_from
        let ps := match selOffset with | some o => o + ps0 | none => ps0
        let pe := match selOffset with | some o => o + pe0 | none => pe0
        let spliced := pyTake patched (ps - adj) ++ ' ' :: values ++ pyDrop patched (pe - adj)
        let rewritten ← aliasRewriteStep replaceAliases v.patch_params spliced
        patchGo rows cols replaceAliases selOffset rest rewritten
          (adj + ((pe - ps) - ((values.length : Int) + 1)))

/-- Shallow embedding of `Renderer.patch(selector, rows, cols)`:
`selectorViews` is `some vs` when a selector was given, where `vs` models the
views obtained by replaying the selector against `self.sql_view` (which is
forced, raising `MultipleMatchError` on a multi-view renderer); with no
selector the renderer's own views are patched in place.  After the loop the
result is a fresh renderer over the patched text (`RenderSQL` is rebuilt, so
safe mode re-strips) whose single view spans the old bounds adjusted by the
total delta.  The `side_effect` argument is not modelled; `rows or []` is
the caller passing `[]`. -/
def Renderer.patch (r : Renderer) (safeMode : Bool) (selectorViews : Option (List View))
    (rows : List (List PyVal)) (cols : Option (List (List Char)))
    (replaceAliases : Bool) : Except Err Renderer := do
  let renderedViews ←
    match selectorViews with
    | some vs => do
      let _ ← r.sql_view
      pure vs
    | none => pure r.views
  let selOffset ←
    match selectorViews with
    | some _ => do
      let v ← r.view
      pure (some v.bstart)
    | none => pure (none : Option Int)
  let st ← patchGo rows cols replaceAliases selOffset renderedViews r.raw 0
  let v ← r.view
  let rs ← RenderSQL.make safeMode st.1
  Renderer.make rs [⟨v.bstart, v.bstop - st.2, none, PatchParams.make none false none⟩]

/-! ### Helper lemmas -/

theorem Renderer.make_ok {rs : RenderSQL} {vs : List View} {r : Renderer} :
    Renderer.make rs vs = .ok r ↔ (nestedOK vs = true ∧ r = ⟨rs, vs⟩) := by
  unfold Renderer.make
  split <;> rename_i h <;> simp [h, eq_comm]

theorem Renderer.make_error {rs : RenderSQL} {vs : List View} {e : Err} :
    Renderer.make rs vs = .error e ↔ (nestedOK vs = false ∧ e = .nestedMatch) := by
  unfold Renderer.make
  split <;> rename_i h
  · simp [h]
  · simp only [Bool.not_eq_true] at h
    simp [h, eq_comm]

theorem nestedOK_iff_chain (views : List View) :
    nestedOK views = true ↔ List.Chain' (fun a b => a.bstop ≤ b.bstart) views := by
  induction views with
  | nil => simp [nestedOK]
  | cons a rest ih =>
    cases rest with
    | nil => simp [nestedOK]
    | cons b rest' =>
      rw [nestedOK]
      rw [Bool.and_eq_true, ih, List.chain'_cons]
      constructor
      · rintro ⟨h1, h2⟩
        refine ⟨?_, h2⟩
        simp only [Bool.not_eq_true', decide_eq_false_iff_not, not_lt] at h1
        exact h1
      · rintro ⟨h1, h2⟩
        refine ⟨?_, h2⟩
        simp only [Bool.not_eq_true', decide_eq_false_iff_not, not_lt]
        exact h1

theorem zip_take_length {α β : Type} (l : List α) (l' : List β) :
    (l.take l'.length).zip l' = l.zip l' := by
  induction l generalizing l' with
  | nil => simp
  | cons a t ih =>
    cases l' with
    | nil => simp
    | cons b t' => simp [List.zip_cons_cons, ih]

theorem excBind_ok {α β : Type} (a : α) (f : α → Except Err β) :
    ((Except.ok a : Except Err α) >>= f) = f a := rfl

theorem excBind_err {α β : Type} (e : Err) (f : α → Except Err β) :
    ((Except.error e : Except Err α) >>= f) = .error e := rfl

theorem excBind_ok_inv {α β : Type} {m : Except Err α} {f : α → Except Err β} {b : β}
    (h : (m >>= f) = .ok b) : ∃ a, m = .ok a ∧ f a = .ok b := by
  cases m with
  | error e => exact absurd h (by simp [excBind_err])
  | ok a => exact ⟨a, rfl, h⟩

/-! ### Claim theorems -/

/-- Claim C5 (code bug): the spec states that for every input the masking
pass terminates without error and is length-preserving.  Evaluating the
embedded code at the failing input `a"b` shows it instead fails: the opener
alternation of `_SPLITTER_REGEXES[None]` matches the double quote, but the
dict has no entry under the `"` key, so the next loop iteration raises
`KeyError('"')`. -/
theorem c5_masking_keyerror_on_double_quote :
    stripCommentsAndStringLiterals ['a', dquote, 'b'] = .error (.keyError [dquote]) := rfl

/-- Claim C8 counterexample: the claim says the absence-of-value scalar is
never given a cast, but `_to_sql_value(None, 'INTEGER')` evaluates to
`null::INTEGER` — an explicit column annotation is appended as a cast even
to `null`. -/
theorem c8_none_cast_counterexample :
    toSqlValue .vNone (some "INTEGER".data) = .ok "null::INTEGER".data ∧
    "null::INTEGER".data ≠ "null".data := ⟨rfl, by decide⟩

/-- Claim C8 (amended): serializing `None` yields the literal `null` and
receives no inferred cast, but a non-empty explicit column annotation is
appended as a cast to every serialized value, `null` included; for every
scalar with a serializer a non-empty explicit annotation always overrides
the inferred cast; a scalar of an unsupported kind fails with
`ValueSerializationError` naming the value and its kind. -/
theorem c8_serialization_amended :
    (toSqlValue .vNone none = .ok "null".data) ∧
    (∀ ct : List Char, ct ≠ [] →
      toSqlValue .vNone (some ct) = .ok ("null".data ++ "::".data ++ ct)) ∧
    (∀ (v : PyVal) (base : List Char) (ct : List Char),
      pgValueSerializers v = some base → ct ≠ [] →
      toSqlValue v (some ct) = .ok (base ++ "::".data ++ ct)) ∧
    (∀ (r t : List Char) (ct : Option (List Char)),
      toSqlValue (.vOther r t) ct = .error (.valueSerialization r t)) := by
  refine ⟨rfl, ?_, ?_, ?_⟩
  · intro ct hct
    have hct' : ct.isEmpty = false := by simpa [List.isEmpty_iff] using hct
    simp [toSqlValue, truthyOpt, pgTypes, pgValueSerializers, hct']
    try rfl
  · intro v base ct hser hct
    have hct' : ct.isEmpty = false := by simpa [List.isEmpty_iff] using hct
    simp [toSqlValue, truthyOpt, hser, hct']
    try rfl
  · intro r t ct
    cases ct with
    | none => rfl
    | some c => rfl

/-- Witness for C8: the amended theorem applied at concrete inputs. -/
theorem c8_serialization_amended_witness :
    toSqlValue .vNone (some "INT".data) = .ok ("null".data ++ "::".data ++ "INT".data) ∧
    toSqlValue (.vDate "2017-06-01".data) (some "TEXT".data) =
      .ok (quoteWrap "2017-06-01".data ++ "::".data ++ "TEXT".data) ∧
    toSqlValue (.vOther "x".data "T".data) none =
      .error (.valueSerialization "x".data "T".data) :=
  ⟨c8_serialization_amended.2.1 "INT".data (by decide),
   c8_serialization_amended.2.2.1 (.vDate "2017-06-01".data) _ "TEXT".data rfl (by decide),
   c8_serialization_amended.2.2.2 "x".data "T".data none⟩

/-- Claim C9: with non-empty column specs, serializing a positional row is
the same as serializing the row truncated to the column count and padded
with `None` to exactly that count — so trailing extra values are silently
dropped (they are never serialized, hence raise nothing) and only shorter
rows are padded with `null`. -/
theorem rowToSqlValues_eq_zip (row : List PyVal) (colTypes : List (Option (List Char)))
    (h : colTypes.isEmpty = false) :
    rowToSqlValues row colTypes = (do
      let vals ←
        ((if colTypes.length > row.length then
            row ++ List.replicate (colTypes.length - row.length) PyVal.vNone
          else row).zip colTypes).mapM (fun p => toSqlValue p.1 p.2)
      pure ('(' :: joinWith [','] vals ++ [')'])) := by
  simp only [rowToSqlValues, h, Bool.not_false, true_and, if_true]
  try (split <;> rfl)

theorem c9_row_truncation_padding :
    ∀ (row : List PyVal) (colTypes : List (Option (List Char))), colTypes ≠ [] →
      rowToSqlValues row colTypes =
        rowToSqlValues (row.take colTypes.length ++
          List.replicate (colTypes.length - row.length) PyVal.vNone) colTypes ∧
      (row.take colTypes.length ++
          List.replicate (colTypes.length - row.length) PyVal.vNone).length =
        colTypes.length := by
  intro row colTypes hne
  have hne' : colTypes.isEmpty = false := by simpa [List.isEmpty_iff] using hne
  refine ⟨?_, ?_⟩
  · rw [rowToSqlValues_eq_zip _ _ hne', rowToSqlValues_eq_zip _ _ hne']
    have hzip :
        (if colTypes.length > row.length then
            row ++ List.replicate (colTypes.length - row.length) PyVal.vNone
          else row).zip colTypes =
        (if colTypes.length > (row.take colTypes.length ++
              List.replicate (colTypes.length - row.length) PyVal.vNone).length then
            (row.take colTypes.length ++
              List.replicate (colTypes.length - row.length) PyVal.vNone) ++
              List.replicate (colTypes.length - (row.take colTypes.length ++
                List.replicate (colTypes.length - row.length) PyVal.vNone).length) PyVal.vNone
          else row.take colTypes.length ++
            List.replicate (colTypes.length - row.length) PyVal.vNone).zip colTypes := by
      by_cases hlen : colTypes.length > row.length
      · have htake : row.take colTypes.length = row := List.take_of_length_le (by omega)
        have hlen2 : ¬ colTypes.length > (row.take colTypes.length ++
            List.replicate (colTypes.length - row.length) PyVal.vNone).length := by
          simp only [List.length_append, List.length_take, List.length_replicate]
          omega
        rw [if_pos hlen, if_neg hlen2, htake]
      · have hrep : colTypes.length - row.length = 0 := by omega
        have hlen2 : ¬ colTypes.length > (row.take colTypes.length ++
            List.replicate (colTypes.length - row.length) PyVal.vNone).length := by
          simp only [List.length_append, List.length_take, List.length_replicate]
          omega
        rw [if_neg hlen, if_neg hlen2, hrep, List.replicate_zero, List.append_nil]
        exact (zip_take_length row colTypes).symm
    rw [hzip]
  · simp only [List.length_append, List.length_take, List.length_replicate]
    omega

/-- Witness for C9: a three-value row against two untyped columns serializes
exactly like its two-value truncation (the unserializable third value is
dropped before serialization), and the normalized row has length 2. -/
theorem c9_row_truncation_padding_witness :
    rowToSqlValues [.vInt 1, .vInt 2, .vOther "x".data "T".data] [none, none] =
      rowToSqlValues ([PyVal.vInt 1, PyVal.vInt 2, PyVal.vOther "x".data "T".data].take 2 ++
        List.replicate (2 - 3) PyVal.vNone) [none, none] ∧
    ([PyVal.vInt 1, PyVal.vInt 2, PyVal.vOther "x".data "T".data].take 2 ++
        List.replicate (2 - 3) PyVal.vNone).length = 2 :=
  c9_row_truncation_padding [.vInt 1, .vInt 2, .vOther "x".data "T".data]
    [none, none] (by decide)

/-- Claim C10 counterexample: the claim says every call with `end < start`
fails the assertion before the range check; but `end = 0` is falsy in
`end = end or start + 1`, so `statement(2, 0)` on `"a;b;c"` silently
defaults to `end = 3` and succeeds, rendering `"c"`. -/
theorem c10_statement_end_zero_counterexample :
    (do
      let r ← Renderer.ofSql false "a;b;c".data
      let r2 ← r.statement 2 (some 0)
      r2.sql_view) = Except.ok "c".data := rfl

/-- Claim C10 (amended): on a single-view renderer, a negative `start`
always fails with a bare assertion failure before the range check, and so
does `end < start` whenever the explicit `end` is non-zero (an explicit
`end = 0` is falsy in `end = end or start + 1` and is treated as omitted). -/
theorem c10_statement_asserts_amended :
    ∀ (r : Renderer) (v : View) (start : Int) (endOpt : Option Int),
      r.views = [v] →
      (start < 0 → r.statement start endOpt = .error .assertionError) ∧
      (∀ e : Int, endOpt = some e → e ≠ 0 → e < start →
        r.statement start endOpt = .error .assertionError) := by
  intro r v start endOpt hv
  have hview : r.view = .ok v := by simp [Renderer.view, hv]
  have hsv : r.search_view =
      .ok (pySlice r.rendering_sql.search_sql v.bstart v.bstop) := by
    simp [Renderer.search_view, hview]
  constructor
  · intro hneg
    cases endOpt with
    | none =>
      have h1 : ((start + 1 : Int) ≥ start) := by omega
      have h2 : ¬ ((start : Int) ≥ 0) := by omega
      simp [Renderer.statement, hsv, h1, h2, excBind_ok]
    | some ev =>
      by_cases hev : ev = 0
      · have h1 : ((start + 1 : Int) ≥ start) := by omega
        have h2 : ¬ ((start : Int) ≥ 0) := by omega
        simp [Renderer.statement, hsv, hev, h1, h2, excBind_ok]
      · by_cases hge : ev ≥ start
        · have h2 : ¬ ((start : Int) ≥ 0) := by omega
          simp [Renderer.statement, hsv, hev, hge, h2, excBind_ok]
        · simp [Renderer.statement, hsv, hev, hge, excBind_ok]
  · intro ev hev hnz hlt
    subst hev
    have h1 : ¬ ((ev : Int) ≥ start) := by omega
    simp [Renderer.statement, hsv, hnz, h1, excBind_ok]

/-- Witness for C10's amended theorem, applied at a concrete renderer. -/
theorem c10_statement_asserts_amended_witness :
    (Renderer.mk ⟨none, "a;b".data, "a;b".data⟩
      [⟨0, 3, none, PatchParams.make none false none⟩]).statement (-1) none =
        .error .assertionError ∧
    (Renderer.mk ⟨none, "a;b".data, "a;b".data⟩
      [⟨0, 3, none, PatchParams.make none false none⟩]).statement 5 (some 2) =
        .error .assertionError :=
  ⟨(c10_statement_asserts_amended _ _ (-1) none rfl).1 (by decide),
   (c10_statement_asserts_amended _ _ 5 (some 2) rfl).2 2 rfl (by decide) (by decide)⟩

theorem chain_starts {views : List View}
    (h : List.Chain' (fun a b => a.bstop ≤ b.bstart) views)
    (hwf : ∀ w ∈ views, w.bstart ≤ w.bstop) :
    List.Chain' (fun a b => a.bstart ≤ b.bstart) views := by
  induction views with
  | nil => simp
  | cons a rest ih =>
    cases rest with
    | nil => simp
    | cons b rest' =>
      rw [List.chain'_cons] at h
      rw [List.chain'_cons]
      refine ⟨?_, ih h.2 (fun w hw => hwf w (List.mem_cons_of_mem a hw))⟩
      have ha := hwf a (by simp)
      omega

/-- Claim C3: constructing a `Renderer` succeeds exactly when the views
satisfy `views[i].bounds.stop ≤ views[i+1].bounds.start` pairwise; any
violation raises `NestedMatchError` at construction time; hence every
successfully constructed renderer's views are non-overlapping, and (for
well-formed views with `start ≤ stop`) ordered by ascending `bounds.start`.
Every operation that produces a new renderer does so through this
constructor, so the invariant is preserved. -/
theorem c3_nested_match_invariant :
    ∀ (rs : RenderSQL) (views : List View),
      ((∃ r, Renderer.make rs views = .ok r) ↔
        List.Chain' (fun a b => a.bstop ≤ b.bstart) views) ∧
      (¬ List.Chain' (fun a b => a.bstop ≤ b.bstart) views →
        Renderer.make rs views = .error .nestedMatch) ∧
      (∀ r, Renderer.make rs views = .ok r →
        List.Chain' (fun a b => a.bstop ≤ b.bstart) r.views ∧
        ((∀ w ∈ views, w.bstart ≤ w.bstop) →
          List.Chain' (fun a b => a.bstart ≤ b.bstart) r.views)) := by
  intro rs views
  refine ⟨?_, ?_, ?_⟩
  · constructor
    · rintro ⟨r, hr⟩
      exact (nestedOK_iff_chain views).mp (Renderer.make_ok.mp hr).1
    · intro hc
      exact ⟨⟨rs, views⟩, Renderer.make_ok.mpr ⟨(nestedOK_iff_chain views).mpr hc, rfl⟩⟩
  · intro hc
    refine Renderer.make_error.mpr ⟨?_, rfl⟩
    by_contra hne
    have : nestedOK views = true := by
      cases hno : nestedOK views with
      | true => rfl
      | false => exact absurd hno hne
    exact hc ((nestedOK_iff_chain views).mp this)
  · intro r hr
    obtain ⟨hok, hre⟩ := Renderer.make_ok.mp hr
    subst hre
    have hchain := (nestedOK_iff_chain views).mp hok
    exact ⟨hchain, fun hwf => chain_starts hchain hwf⟩

/-- Witness for C3: overlapping views are rejected with `NestedMatchError`;
a successfully constructed two-view renderer has non-overlapping views with
ascending starts. -/
theorem c3_nested_match_invariant_witness :
    Renderer.make ⟨none, [], []⟩
      [⟨0, 5, none, PatchParams.make none false none⟩,
       ⟨3, 7, none, PatchParams.make none false none⟩] = .error .nestedMatch ∧
    (List.Chain' (fun a b => a.bstop ≤ b.bstart)
      [(⟨0, 3, none, PatchParams.make none false none⟩ : View),
       ⟨5, 9, none, PatchParams.make none false none⟩] ∧
     List.Chain' (fun a b => a.bstart ≤ b.bstart)
      [(⟨0, 3, none, PatchParams.make none false none⟩ : View),
       ⟨5, 9, none, PatchParams.make none false none⟩]) := by
  constructor
  · refine (c3_nested_match_invariant _ _).2.1 ?_
    simp [List.chain'_cons]
  · have h := (c3_nested_match_invariant ⟨none, [], []⟩
      [⟨0, 3, none, PatchParams.make none false none⟩,
       ⟨5, 9, none, PatchParams.make none false none⟩]).2.2 _ rfl
    exact ⟨h.1, h.2 (by decide)⟩

/-- Claim C4: a renderer holding two or more (non-nested) views is a valid
match-time result — the constructor only ever raises `NestedMatchError`,
never `MultipleMatchError`, and a concrete two-occurrence subquery search
succeeds with a match set of size 2 — while `MultipleMatchError` is raised
lazily by the consuming operations: the `view` property, reading the
selection as a single string (`sql_view`), or chaining a further narrowing
operation (`statement`, `subquery`) onto the unresolved multi-match. -/
theorem c4_multiple_match_lazy :
    (∀ r : Renderer, 2 ≤ r.views.length →
      r.view = .error .multipleMatch ∧
      r.sql_view = .error .multipleMatch ∧
      (∀ (i : Int) (e : Option Int), r.statement i e = .error .multipleMatch) ∧
      (∀ a : List Char, r.subquery a = .error .multipleMatch)) ∧
    (∀ (rs : RenderSQL) (views : List View) (e : Err),
      Renderer.make rs views = .error e → e = .nestedMatch) ∧
    ((do
      let r ← Renderer.ofSql false "select * from (select 1) bb, (select 2) bb".data
      let r2 ← r.subquery "bb".data
      pure r2.views.length) = Except.ok 2) := by
  refine ⟨?_, ?_, rfl⟩
  · intro r hlen
    have hview : r.view = .error .multipleMatch := by
      rcases hv : r.views with _ | ⟨a, _ | ⟨b, rest⟩⟩
      · rw [hv] at hlen; simp at hlen
      · rw [hv] at hlen; simp at hlen
      · simp [Renderer.view, hv]
    refine ⟨hview, ?_, ?_, ?_⟩
    · simp [Renderer.sql_view, hview]
    · intro i e
      simp [Renderer.statement, Renderer.search_view, hview, excBind_err]
    · intro a
      simp [Renderer.subquery, Renderer.search_view, hview, excBind_err]
  · intro rs views e h
    exact (Renderer.make_error.mp h).2

/-- Witness for C4, applied at a concrete two-view renderer and a concrete
nested construction. -/
theorem c4_multiple_match_lazy_witness :
    (Renderer.mk ⟨none, "ab".data, "ab".data⟩
      [⟨0, 1, none, PatchParams.make none false none⟩,
       ⟨1, 2, none, PatchParams.make none false none⟩]).sql_view =
        .error .multipleMatch ∧
    (Err.nestedMatch = Err.nestedMatch) :=
  ⟨((c4_multiple_match_lazy.1 (Renderer.mk ⟨none, "ab".data, "ab".data⟩
      [⟨0, 1, none, PatchParams.make none false none⟩,
       ⟨1, 2, none, PatchParams.make none false none⟩]) (by decide)).2.1),
   c4_multiple_match_lazy.2.1 ⟨none, [], []⟩
     [⟨0, 5, none, PatchParams.make none false none⟩,
      ⟨3, 7, none, PatchParams.make none false none⟩] Err.nestedMatch
     (by rfl)⟩

theorem RenderSQL.make_raw {safeMode : Bool} {sql : List Char} {rs : RenderSQL}
    (h : RenderSQL.make safeMode sql = .ok rs) : rs.raw_sql = sql := by
  unfold RenderSQL.make at h
  split at h
  · rcases hst : stripCommentsAndStringLiterals sql with e | st
    · rw [hst] at h
      exact absurd h (by simp [excBind_err])
    · rw [hst, excBind_ok] at h
      split at h
      · cases h
        rfl
      · exact absurd h (by simp)
  · cases h
    rfl

/-- Claim C2 counterexample: chaining `statement(1)` then `table('b')` on
`"select * from a; select * from b"` returns a renderer whose raw text is
the current search slice `" select * from b"` — not the original text — and
whose view bounds `(15, 16)` are offsets into that slice: interpreted
against the original text those offsets select `";"`, not the matched table
`"b"` (which sits at offsets 31..32).  So the `table` matcher does not
return Views at original-text absolute offsets. -/
theorem c2_table_relative_offsets_counterexample :
    (do
      let r ← Renderer.ofSql false "select * from a; select * from b".data
      let r1 ← r.statement 1 none
      r1.table false "b".data) =
      Except.ok ⟨⟨none, " select * from b".data, " select * from b".data⟩,
        [⟨15, 16, some (15, 16),
          ⟨some "b".data, false, some "b".data⟩⟩]⟩ ∧
    pySlice "select * from a; select * from b".data 15 16 = ";".data := ⟨rfl, rfl⟩

/-- Claim C2 (amended): `statement`, `subquery`, `cte`, `insert_into` and
`create_table_as` search only the (possibly masked) search text restricted
to the current view and return renderers that share the original rendering
SQL, their views shifted to absolute offsets; `table` is the sole exception:
it rebuilds its renderer from the current search-view slice itself, so its
views are offsets into that slice (and under safe mode the masked slice
becomes the new raw text).  Concretely, after `statement(1)`, each of
`subquery`, `cte`, `insert_into` and `create_table_as` yields bounds and
patch ranges whose slice of the *original* text is the matched region. -/
theorem c2_matcher_text_amended :
    (∀ (r r' : Renderer) (i : Int) (e : Option Int),
      r.statement i e = .ok r' → r'.rendering_sql = r.rendering_sql) ∧
    (∀ (r r' : Renderer) (a : List Char),
      r.subquery a = .ok r' → r'.rendering_sql = r.rendering_sql) ∧
    (∀ (r r' : Renderer) (safeMode : Bool) (t : List Char),
      r.table safeMode t = .ok r' →
      ∃ sv, r.search_view = .ok sv ∧ r'.raw = sv) ∧
    (∀ (r r' : Renderer) (a : List Char),
      r.cte a = .ok r' → r'.rendering_sql = r.rendering_sql) ∧
    (∀ (r r' : Renderer) (t : List Char),
      r.insert_into t = .ok r' → r'.rendering_sql = r.rendering_sql) ∧
    (∀ (r r' : Renderer) (t : List Char),
      r.create_table_as t = .ok r' → r'.rendering_sql = r.rendering_sql) ∧
    ((do
      let r ← Renderer.ofSql false "select * from x; select * from (select 1) bb".data
      let r1 ← r.statement 1 none
      let r2 ← r1.subquery "bb".data
      pure (r2.raw, r2.views.map (fun v => (v.bstart, v.bstop)))) =
      Except.ok ("select * from x; select * from (select 1) bb".data, [(32, 40)]) ∧
     pySlice "select * from x; select * from (select 1) bb".data 32 40 =
       "select 1".data) ∧
    ((do
      let r ← Renderer.ofSql false "x; with t as (select 1) select * from t".data
      let r1 ← r.statement 1 none
      let r2 ← r1.cte "t".data
      pure (r2.raw, r2.views.map (fun v => (v.bstart, v.bstop)))) =
      Except.ok ("x; with t as (select 1) select * from t".data, [(14, 22)]) ∧
     pySlice "x; with t as (select 1) select * from t".data 14 22 =
       "select 1".data) ∧
    ((do
      let r ← Renderer.ofSql false "a; insert into tbl (a,b) select 1 from q; c".data
      let r1 ← r.statement 1 none
      let r2 ← r1.insert_into "tbl".data
      pure (r2.raw, r2.views.map (fun v => (v.bstart, v.bstop, v.patch)))) =
      Except.ok ("a; insert into tbl (a,b) select 1 from q; c".data,
        [(3, 40, some (24, 40))]) ∧
     pySlice "a; insert into tbl (a,b) select 1 from q; c".data 24 40 =
       " select 1 from q".data) ∧
    ((do
      let r ← Renderer.ofSql false "q; create table t (a int) as select 1 from z; w".data
      let r1 ← r.statement 1 none
      let r2 ← r1.create_table_as "t".data
      pure (r2.raw, r2.views.map (fun v => (v.bstart, v.bstop, v.patch)))) =
      Except.ok ("q; create table t (a int) as select 1 from z; w".data,
        [(3, 44, some (28, 44))]) ∧
     pySlice "q; create table t (a int) as select 1 from z; w".data 28 44 =
       " select 1 from z".data) := by
  refine ⟨?_, ?_, ?_, ?_, ?_, ?_, ⟨rfl, rfl⟩, ⟨rfl, rfl⟩, ⟨rfl, rfl⟩, rfl, rfl⟩
  · intro r r' i e h
    unfold Renderer.statement at h
    rcases hsv : r.search_view with e0 | sql
    · rw [hsv] at h
      exact absurd h (by simp [excBind_err])
    · rw [hsv, excBind_ok] at h
      try (dsimp only at h)
      split at h
      · exact Except.noConfusion h
      split at h
      · exact Except.noConfusion h
      split at h
      · exact Except.noConfusion h
      rcases hv : r.view with e1 | v
      · rw [hv] at h
        exact absurd h (by simp [excBind_err])
      · rw [hv, excBind_ok] at h
        rw [(Renderer.make_ok.mp h).2]
  · intro r r' a h
    unfold Renderer.subquery at h
    rcases hsv : r.search_view with e0 | sql
    · rw [hsv] at h
      exact absurd h (by simp [excBind_err])
    · rw [hsv, excBind_ok] at h
      try (dsimp only at h)
      split at h
      · exact absurd h (by simp)
      · rcases hv : r.view with e1 | v
        · rw [hv] at h
          exact absurd h (by simp [excBind_err])
        · rw [hv, excBind_ok] at h
          rcases hm : (finditer (subqMatchAt a) sql).mapM
              (fun m => do
                let leftParen ← findEnclosingParen sql m.1 (-1)
                pure ((View.mk (leftParen + 1) (m.1 : Int)
                  (some (leftParen, (m.2.2 : Int)))
                  (PatchParams.make (some a) false none)).from_offset v.bstart)) with e2 | views
          · rw [hm] at h
            exact absurd h (by simp [excBind_err])
          · rw [hm, excBind_ok] at h
            rw [(Renderer.make_ok.mp h).2]
  · intro r r' safeMode t h
    unfold Renderer.table at h
    rcases hsv : r.search_view with e0 | sql
    · rw [hsv] at h
      exact absurd h (by simp [excBind_err])
    · rw [hsv, excBind_ok] at h
      try (dsimp only at h)
      refine ⟨sql, rfl, ?_⟩
      split at h
      · exact absurd h (by simp)
      · rcases hrs : RenderSQL.make safeMode sql with e1 | rs
        · rw [hrs] at h
          exact absurd h (by simp [excBind_err])
        · rw [hrs, excBind_ok] at h
          have := (Renderer.make_ok.mp h).2
          subst this
          exact RenderSQL.make_raw hrs
  · intro r r' a h
    unfold Renderer.cte at h
    obtain ⟨sql, hsv, h⟩ := excBind_ok_inv h
    dsimp only at h
    split at h
    · exact Except.noConfusion h
    · obtain ⟨v, hv, h⟩ := excBind_ok_inv h
      obtain ⟨views, hm, h⟩ := excBind_ok_inv h
      rw [(Renderer.make_ok.mp h).2]
  · intro r r' t h
    unfold Renderer.insert_into at h
    obtain ⟨sql, hsv, h⟩ := excBind_ok_inv h
    dsimp only at h
    split at h
    · exact Except.noConfusion h
    · obtain ⟨v, hv, h⟩ := excBind_ok_inv h
      obtain ⟨views, hm, h⟩ := excBind_ok_inv h
      rw [(Renderer.make_ok.mp h).2]
  · intro r r' t h
    unfold Renderer.create_table_as at h
    obtain ⟨sql, hsv, h⟩ := excBind_ok_inv h
    dsimp only at h
    split at h
    · exact Except.noConfusion h
    · obtain ⟨v, hv, h⟩ := excBind_ok_inv h
      rw [(Renderer.make_ok.mp h).2]

/-- Witness for C2's amended theorem, applied at concrete renderers. -/
theorem c2_matcher_text_amended_witness :
    (Renderer.mk ⟨none, "a;b".data, "a;b".data⟩
      [⟨0, 3, none, PatchParams.make none false none⟩]).statement 1 none =
        .ok ⟨⟨none, "a;b".data, "a;b".data⟩,
          [⟨2, 3, none, PatchParams.make none false none⟩]⟩ ∧
    (⟨⟨none, "a;b".data, "a;b".data⟩,
      [⟨2, 3, none, PatchParams.make none false none⟩]⟩ : Renderer).rendering_sql =
      (Renderer.mk ⟨none, "a;b".data, "a;b".data⟩
        [⟨0, 3, none, PatchParams.make none false none⟩]).rendering_sql :=
  ⟨rfl, c2_matcher_text_amended.1 _ _ 1 none rfl⟩

theorem find?_map_succ (p q : Nat → Bool) (n : Nat) (hpq : ∀ k, p (k + 1) = q k) :
    List.find? p ((List.range n).map (· + 1)) =
      (List.find? q (List.range n)).map (· + 1) := by
  rw [List.find?_map]
  have : (p ∘ (· + 1)) = q := by
    funext k
    exact hpq k
  rw [this]

theorem findParenLoop_eq_firstBalanced (ps pe : Char) (hne : pe ≠ ps) :
    ∀ (cs : List Char) (u : Nat), findParenLoop ps pe u cs = firstBalanced ps pe u cs := by
  intro cs
  induction cs with
  | nil => intro u; rfl
  | cons c rest ih =>
    intro u
    rw [firstBalanced]
    simp only [List.length_cons, List.range_succ_eq_map,
      show (Nat.succ : Nat → Nat) = (· + 1) from rfl]
    by_cases hcps : c = ps
    · have hcpe : ¬ (c = pe) := fun hc => absurd (hcps ▸ hc).symm hne
      rw [List.find?_cons_of_neg _ (by
        simp only [List.getD_cons_zero, List.take_zero, List.count_nil, beq_iff_eq,
          Bool.and_eq_true, not_and]
        intro hc
        exact absurd hc hcpe)]
      rw [findParenLoop, if_pos hcps, ih (u + 1), firstBalanced]
      refine (find?_map_succ _ _ _ ?_).symm
      intro k
      apply Bool.eq_iff_iff.mpr
      simp only [List.getD_cons_succ, List.take_succ_cons, List.count_cons, beq_iff_eq,
        Bool.and_eq_true]
      constructor
      · rintro ⟨h1, h2⟩
        refine ⟨h1, ?_⟩
        simp only [if_neg hcpe, if_pos hcps] at h2 ⊢
        omega
      · rintro ⟨h1, h2⟩
        refine ⟨h1, ?_⟩
        simp only [if_neg hcpe, if_pos hcps] at h2 ⊢
        omega
    · by_cases hcpe : c = pe
      · rw [findParenLoop, if_neg hcps, if_pos hcpe]
        by_cases hu : u = 0
        · subst hu
          rw [List.find?_cons_of_pos _ (by simp [beq_iff_eq, hcpe])]
          simp
        · rw [List.find?_cons_of_neg _ (by
            simp only [List.getD_cons_zero, List.take_zero, List.count_nil, beq_iff_eq,
              Bool.and_eq_true, not_and]
            intro _
            omega)]
          rw [if_pos hu]
          rw [ih (u - 1), firstBalanced]
          refine (find?_map_succ _ _ _ ?_).symm
          intro k
          apply Bool.eq_iff_iff.mpr
          simp only [List.getD_cons_succ, List.take_succ_cons, List.count_cons, beq_iff_eq,
            Bool.and_eq_true]
          constructor
          · rintro ⟨h1, h2⟩
            refine ⟨h1, ?_⟩
            simp only [if_pos hcpe, if_neg hcps] at h2 ⊢
            omega
          · rintro ⟨h1, h2⟩
            refine ⟨h1, ?_⟩
            simp only [if_pos hcpe, if_neg hcps] at h2 ⊢
            omega
      · rw [findParenLoop, if_neg hcps, if_neg hcpe]
        rw [List.find?_cons_of_neg _ (by
          simp only [List.getD_cons_zero, List.take_zero, List.count_nil, beq_iff_eq,
            Bool.and_eq_true, not_and]
          intro hc
          exact absurd hc hcpe)]
        rw [ih u, firstBalanced]
        refine (find?_map_succ _ _ _ ?_).symm
        intro k
        apply Bool.eq_iff_iff.mpr
        simp only [List.getD_cons_succ, List.take_succ_cons, List.count_cons, beq_iff_eq,
          Bool.and_eq_true]
        constructor
        · rintro ⟨h1, h2⟩
          refine ⟨h1, ?_⟩
          simp only [if_neg hcpe, if_neg hcps] at h2 ⊢
          omega
        · rintro ⟨h1, h2⟩
          refine ⟨h1, ?_⟩
          simp only [if_neg hcpe, if_neg hcps] at h2 ⊢
          omega

/-- Claim C7 counterexample: the claim says the scan starts one position
past the index in the given direction and raises `InvalidSyntax` exactly
when it exhausts the text without a balanced match.  For `index = 0` going
backward the region one past the index is empty (second conjunct), so the
claim demands an error; but the Python slice `sql[-1::-1]` wraps around and
scans the whole string in reverse, and on the text `"("` the call returns
`-1` instead of raising. -/
theorem c7_paren_wraparound_counterexample :
    findEnclosingParen ['('] 0 (-1) = .ok (-1) ∧
    ((['(']).take 0).reverse = ([] : List Char) := ⟨rfl, rfl⟩

/-- Claim C7 (amended): for direction 1 (any index), and for direction -1
with index ≥ 1 (so the Python slice does not wrap around), the balancer
scans the region one position past the index in the given direction and
returns `index + (k + 1) * direction` where `k` is the first position of
that region holding the opposite-direction paren with the two paren counts
balanced over the strict prefix (depth 0); it raises `InvalidSyntax` exactly
when no such position exists (the scan exhausts the text). -/
theorem c7_paren_balancer_amended :
    (∀ (sql : List Char) (parenIdx : Nat),
      findEnclosingParen sql parenIdx 1 =
        match firstBalanced '(' ')' 0 (sql.drop (parenIdx + 1)) with
        | none => .error .invalidSQL
        | some k => .ok ((parenIdx : Int) + ((k : Int) + 1) * 1)) ∧
    (∀ (sql : List Char) (parenIdx : Nat), 1 ≤ parenIdx →
      findEnclosingParen sql parenIdx (-1) =
        match firstBalanced ')' '(' 0 ((sql.take parenIdx).reverse) with
        | none => .error .invalidSQL
        | some k => .ok ((parenIdx : Int) + ((k : Int) + 1) * (-1))) := by
  constructor
  · intro sql parenIdx
    have h0 : findEnclosingParen sql parenIdx 1 =
        match findParenLoop '(' ')' 0 (sql.drop (parenIdx + 1)) with
        | none => .error .invalidSQL
        | some k => .ok ((parenIdx : Int) + ((k : Int) + 1) * 1) := rfl
    rw [h0, findParenLoop_eq_firstBalanced _ _ (by decide)]
  · intro sql parenIdx hidx
    have hnz : ¬ (parenIdx = 0) := by omega
    have h0 : findEnclosingParen sql parenIdx (-1) =
        match findParenLoop ')' '(' 0
            (if parenIdx = 0 then sql.reverse else (sql.take parenIdx).reverse) with
        | none => .error .invalidSQL
        | some k => .ok ((parenIdx : Int) + ((k : Int) + 1) * (-1)) := rfl
    rw [h0, if_neg hnz, findParenLoop_eq_firstBalanced _ _ (by decide)]

/-- Witness for C7's amended theorem: applied at `("(())", 0, 1)` it computes
the matching right paren at index 3, and at `("(())", 3, -1)` the matching
left paren at index 0. -/
theorem c7_paren_balancer_amended_witness :
    findEnclosingParen "(())".data 0 1 = .ok 3 ∧
    findEnclosingParen "(())".data 3 (-1) = .ok 0 :=
  ⟨(c7_paren_balancer_amended.1 "(())".data 0).trans (by rfl),
   (c7_paren_balancer_amended.2 "(())".data 3 (by decide)).trans (by rfl)⟩

theorem pySlice_natCast (s : List Char) (a b : Nat) :
    pySlice s (a : Int) (b : Int) = (s.take b).drop a := by
  unfold pySlice pyIdx
  rw [if_neg (by omega), if_neg (by omega)]
  simp

theorem pySlice_whole (s : List Char) : pySlice s 0 (s.length : Int) = s := by
  have h := pySlice_natCast s 0 s.length
  simpa using h

theorem pySplitF_ne_nil (sep : List Char) (fuel : Nat) (s : List Char) :
    pySplitF sep fuel s ≠ [] := by
  cases fuel with
  | zero => simp [pySplitF]
  | succ n =>
    rw [pySplitF]
    split
    · simp
    · split <;> simp

theorem joinWith_cons (sep x : List Char) {l : List (List Char)} (h : l ≠ []) :
    joinWith sep (x :: l) = x ++ sep ++ joinWith sep l := by
  cases l with
  | nil => exact absurd rfl h
  | cons y rest => rfl

theorem findSubIdx_single {c : Char} : ∀ {s : List Char} {i : Nat},
    findSubIdx s [c] = some i → i < s.length ∧ s = s.take i ++ c :: s.drop (i + 1) := by
  intro s
  induction s with
  | nil => intro i h; simp [findSubIdx] at h
  | cons a rest ih =>
    intro i h
    rw [findSubIdx] at h
    split at h
    · rename_i hp
      cases h
      have hca : a = c := by
        simp only [List.isPrefixOf, Bool.and_eq_true, beq_iff_eq] at hp
        exact hp.1.symm
      exact ⟨by simp, by simp [hca]⟩
    · simp only [Option.map_eq_some'] at h
      obtain ⟨j, hj, hij⟩ := h
      subst hij
      obtain ⟨hlt, heq⟩ := ih hj
      refine ⟨by simp; omega, ?_⟩
      simp only [List.take_succ_cons, List.drop_succ_cons, List.cons_append, List.cons.injEq,
        true_and]
      exact heq

/-- `';'.join(s.split(';')) == s`, fuelled version. -/
theorem joinWith_pySplitF (c : Char) :
    ∀ (fuel : Nat) (s : List Char), s.length < fuel →
      joinWith [c] (pySplitF [c] fuel s) = s := by
  intro fuel
  induction fuel with
  | zero => intro s h; omega
  | succ n ih =>
    intro s h
    rw [pySplitF]
    rw [if_neg (by simp)]
    rcases hf : findSubIdx s [c] with _ | i
    · rfl
    · obtain ⟨hlt, heq⟩ := findSubIdx_single hf
      rw [joinWith_cons _ _ (pySplitF_ne_nil [c] n (s.drop (i + List.length [c])))]
      rw [ih (s.drop (i + List.length [c])) (by simp; omega)]
      conv_rhs => rw [heq]
      simp

theorem joinWith_pySplit (c : Char) (s : List Char) :
    joinWith [c] (pySplit [c] s) = s :=
  joinWith_pySplitF c (s.length + 1) s (by omega)

theorem joinWith_take (c : Char) :
    ∀ (mid post : List (List Char)), mid ≠ [] →
      (joinWith [c] (mid ++ post)).take (sumLens mid + (mid.length - 1)) =
        joinWith [c] mid := by
  intro mid
  induction mid with
  | nil => intro post h; exact absurd rfl h
  | cons m rest ih =>
    intro post _
    cases rest with
    | nil =>
      cases post with
      | nil => simp [joinWith, sumLens]
      | cons p ps =>
        rw [show ([m] ++ (p :: ps)) = m :: p :: ps from rfl]
        rw [joinWith_cons [c] m (by simp)]
        rw [List.append_assoc]
        have hm : sumLens [m] + ([m].length - 1) = m.length := by simp [sumLens]
        rw [hm]
        exact List.take_left m ([c] ++ joinWith [c] (p :: ps))
    | cons m2 rest2 =>
      rw [show ((m :: m2 :: rest2) ++ post) = m :: ((m2 :: rest2) ++ post) from rfl]
      rw [joinWith_cons [c] m (by simp)]
      have harith : sumLens (m :: m2 :: rest2) + ((m :: m2 :: rest2).length - 1) =
          (m ++ [c]).length + (sumLens (m2 :: rest2) + ((m2 :: rest2).length - 1)) := by
        simp [sumLens]
        omega
      rw [harith, List.take_append]
      rw [ih post (by simp)]
      rw [joinWith_cons [c] m (by simp)]

theorem joinWith_slice (c : Char) :
    ∀ (pre mid post : List (List Char)), mid ≠ [] →
      ((joinWith [c] (pre ++ mid ++ post)).take
          ((sumLens pre + pre.length) + (sumLens mid + (mid.length - 1)))).drop
        (sumLens pre + pre.length) = joinWith [c] mid := by
  intro pre
  induction pre with
  | nil =>
    intro mid post h
    simp only [List.nil_append, sumLens, List.map_nil, List.sum_nil, List.length_nil,
      Nat.add_zero, Nat.zero_add, List.drop_zero]
    exact joinWith_take c mid post h
  | cons p pre' ih =>
    intro mid post h
    rw [show ((p :: pre') ++ mid ++ post) = p :: (pre' ++ mid ++ post) from rfl]
    rw [joinWith_cons [c] p (by
      intro hc
      rcases List.append_eq_nil.mp hc with ⟨h1, h2⟩
      rcases List.append_eq_nil.mp h1 with ⟨_, h3⟩
      exact h h3)]
    have harith : sumLens (p :: pre') + (p :: pre').length =
        (p ++ [c]).length + (sumLens pre' + pre'.length) := by
      simp [sumLens]
      omega
    rw [harith, Nat.add_assoc, List.take_append, List.drop_append]
    exact ih mid post h

theorem joinWith_slice_take_drop (c : Char) (parts : List (List Char)) (i j : Nat)
    (hij : i < j) (hjn : j ≤ parts.length) :
    ((joinWith [c] parts).take (sumLens (parts.take i) + i +
        (sumLens ((parts.drop i).take (j - i)) +
          (((parts.drop i).take (j - i)).length - 1)))).drop
      (sumLens (parts.take i) + i) =
    joinWith [c] ((parts.drop i).take (j - i)) := by
  have hdecomp : parts = parts.take i ++ (parts.drop i).take (j - i) ++ parts.drop j := by
    have h1 : (parts.drop i).drop (j - i) = parts.drop j := by
      rw [List.drop_drop]
      congr 1
      omega
    calc parts = parts.take i ++ parts.drop i := (List.take_append_drop i parts).symm
      _ = parts.take i ++ ((parts.drop i).take (j - i) ++ (parts.drop i).drop (j - i)) :=
          congrArg (fun t => parts.take i ++ t)
            (List.take_append_drop (j - i) (parts.drop i)).symm
      _ = parts.take i ++ (parts.drop i).take (j - i) ++ parts.drop j := by
          rw [h1, List.append_assoc]
  obtain ⟨pre, hpre⟩ : ∃ pre, pre = parts.take i := ⟨_, rfl⟩
  obtain ⟨mid, hmid⟩ : ∃ mid, mid = (parts.drop i).take (j - i) := ⟨_, rfl⟩
  obtain ⟨post, hpost⟩ : ∃ post, post = parts.drop j := ⟨_, rfl⟩
  have hprelen : pre.length = i := by
    rw [hpre]
    simp only [List.length_take]
    omega
  have hmidne : mid ≠ [] := by
    rw [hmid]
    intro hc
    have hlen := congrArg List.length hc
    simp only [List.length_take, List.length_drop, List.length_nil] at hlen
    omega
  rw [← hpre, ← hmid]
  rw [show parts = pre ++ mid ++ post from by rw [hpre, hmid, hpost]; exact hdecomp]
  rw [show sumLens pre + i = sumLens pre + pre.length from by rw [hprelen]]
  exact joinWith_slice c pre mid post hmidne

/-- Claim C6: `statement(i, j)` splits the search text on `;` with 0-based
indices, `j` defaulting to `i + 1`; selecting `[i, j)` renders exactly the
selected statements joined by their interior semicolons (no trailing one);
in particular statement 0 of
`"select * from a; select * from b; select * from c"` renders
`"select * from a"`; and every non-negative, non-decreasing range reaching
beyond the number of statements found fails with `StatementParseError`
naming that count. -/
theorem c6_statement_selection :
    ∀ s : List Char,
      Renderer.ofSql false s =
        .ok ⟨⟨none, s, s⟩,
          [⟨0, (s.length : Int), none, PatchParams.make none false none⟩]⟩ ∧
      (∀ (r : Renderer) (i : Int), r.statement i none = r.statement i (some (i + 1))) ∧
      (∀ i j : Nat, i < (pySplit [';'] s).length → 0 < j → i < j →
        j ≤ (pySplit [';'] s).length →
        ∃ r', (Renderer.mk ⟨none, s, s⟩
            [⟨0, (s.length : Int), none, PatchParams.make none false none⟩]).statement
            (i : Int) (some (j : Int)) = .ok r' ∧
          r'.sql_view =
            .ok (joinWith [';'] (((pySplit [';'] s).drop i).take (j - i)))) ∧
      (∀ i j : Nat, 0 < j → i ≤ j →
        ((pySplit [';'] s).length ≤ i ∨ (pySplit [';'] s).length < j) →
        (Renderer.mk ⟨none, s, s⟩
            [⟨0, (s.length : Int), none, PatchParams.make none false none⟩]).statement
            (i : Int) (some (j : Int)) =
          .error (.statementParse (pySplit [';'] s).length)) ∧
      ((do
        let r ← Renderer.ofSql false
          "select * from a; select * from b; select * from c".data
        let r2 ← r.statement 0 none
        r2.sql_view) = Except.ok "select * from a".data) := by
  intro s
  refine ⟨rfl, ?_, ?_, ?_, rfl⟩
  · intro r i
    unfold Renderer.statement
    by_cases h0 : (i + 1 : Int) = 0
    · simp [h0]
    · simp [h0]
  · intro i j hi hj0 hij hjn
    have hsv : (Renderer.mk ⟨none, s, s⟩
        [⟨0, (s.length : Int), none, PatchParams.make none false none⟩]).search_view =
        .ok s := by
      simp [Renderer.search_view, Renderer.view, pySlice_whole]
    have hjne : ¬((j : Int) = 0) := by omega
    have hge1 : ((j : Int) ≥ (i : Int)) := by omega
    have hge2 : ((i : Int) ≥ 0) := by omega
    have hrange : ¬((i : Int) ≥ ((pySplit [';'] s).length : Int) ∨
        ((j : Int) > ((pySplit [';'] s).length : Int))) := by
      push_cast
      omega
    unfold Renderer.statement
    rw [hsv, excBind_ok]
    try (dsimp only)
    rw [if_neg hjne]
    rw [if_neg (by simp [hge1])]
    rw [if_neg (by simp [hge2])]
    rw [if_neg hrange]
    rw [show ((i : Int)).toNat = i from by omega]
    rw [show ((j : Int) - (i : Int)) = ((j - i : Nat) : Int) from by omega]
    rw [show (((j - i : Nat) : Int)).toNat = j - i from by omega]
    simp only [Renderer.view, excBind_ok]
    refine ⟨_, Renderer.make_ok.mpr ⟨rfl, rfl⟩, ?_⟩
    simp only [Renderer.sql_view, Renderer.view, Renderer.raw, excBind_ok, View.from_offset]
    congr 1
    have hA : ((sumLens ((pySplit [';'] s).take i) : Nat) : Int) + (i : Int) + 0 =
        ((sumLens ((pySplit [';'] s).take i) + i : Nat) : Int) := by
      push_cast
      ring
    have hB : ((sumLens ((pySplit [';'] s).take i) : Nat) : Int) + (i : Int) +
          ((sumLens (((pySplit [';'] s).drop i).take (j - i)) : Nat) : Int) +
          (((j - i : Nat) : Int) - 1) + 0 =
        ((sumLens ((pySplit [';'] s).take i) + i +
          (sumLens (((pySplit [';'] s).drop i).take (j - i)) +
            ((((pySplit [';'] s).drop i).take (j - i)).length - 1)) : Nat) : Int) := by
      have hmidlen : (((pySplit [';'] s).drop i).take (j - i)).length = j - i := by
        simp only [List.length_take, List.length_drop]
        omega
      rw [hmidlen]
      omega
    rw [hA, hB, pySlice_natCast]
    obtain ⟨parts, hparts⟩ : ∃ p, p = pySplit [';'] s := ⟨_, rfl⟩
    rw [← hparts]
    have hjoin : joinWith [';'] parts = s := by
      rw [hparts]
      exact joinWith_pySplit ';' s
    rw [← hjoin]
    exact joinWith_slice_take_drop ';' parts i j hij (by rw [hparts]; exact hjn)
  · intro i j hj0 hij hout
    have hsv : (Renderer.mk ⟨none, s, s⟩
        [⟨0, (s.length : Int), none, PatchParams.make none false none⟩]).search_view =
        .ok s := by
      simp [Renderer.search_view, Renderer.view, pySlice_whole]
    have hjne : ¬((j : Int) = 0) := by omega
    have hge1 : ((j : Int) ≥ (i : Int)) := by omega
    have hge2 : ((i : Int) ≥ 0) := by omega
    have hrange : ((i : Int) ≥ ((pySplit [';'] s).length : Int) ∨
        ((j : Int) > ((pySplit [';'] s).length : Int))) := by
      push_cast
      omega
    unfold Renderer.statement
    rw [hsv, excBind_ok]
    try (dsimp only)
    rw [if_neg hjne]
    rw [if_neg (by simp [hge1])]
    rw [if_neg (by simp [hge2])]
    rw [if_pos hrange]

/-- Witness for C6, applied at the renderer over `"a;b;c"`: statements
`[1, 3)` render and statement 3 is out of range (3 statements found). -/
theorem c6_statement_selection_witness :
    (∃ r', (Renderer.mk ⟨none, "a;b;c".data, "a;b;c".data⟩
        [⟨0, ("a;b;c".data.length : Int), none, PatchParams.make none false none⟩]).statement
        ((1 : Nat) : Int) (some ((3 : Nat) : Int)) = .ok r' ∧
      r'.sql_view =
        .ok (joinWith [';'] (((pySplit [';'] "a;b;c".data).drop 1).take (3 - 1)))) ∧
    ((Renderer.mk ⟨none, "a;b;c".data, "a;b;c".data⟩
        [⟨0, ("a;b;c".data.length : Int), none, PatchParams.make none false none⟩]).statement
        ((3 : Nat) : Int) (some ((4 : Nat) : Int)) =
      .error (.statementParse (pySplit [';'] "a;b;c".data).length)) :=
  ⟨(c6_statement_selection "a;b;c".data).2.2.1 1 3 (by decide) (by decide) (by decide)
    (by decide),
   (c6_statement_selection "a;b;c".data).2.2.2.1 3 4 (by decide) (by decide)
    (by decide)⟩

theorem pyTake_natCast (s : List Char) (n : Nat) : pyTake s (n : Int) = s.take n := by
  unfold pyTake pyIdx
  rw [if_neg (by omega)]
  simp

theorem pyDrop_natCast (s : List Char) (n : Nat) : pyDrop s (n : Int) = s.drop n := by
  unfold pyDrop pyIdx
  rw [if_neg (by omega)]
  simp

/-- One iteration of the patch loop under a zero selector offset, when the
view is patchable, the columns requirement is met, the VALUES expression
generates, and the alias-rewrite branch is inert (`orig_alias =
patch_alias`). -/
theorem patchGo_cons (rows : List (List PyVal)) (cols : Option (List (List Char)))
    (ra : Bool) (v : View) (rest : List View) (patched : List Char) (adj : Int)
    (a b : Int) (vals : List Char)
    (hp : v.patch = some (a, b))
    (hcols : truthyOpt v.patch_params.patch_alias = true → truthyCols cols = true)
    (horig : v.patch_params.orig_alias = v.patch_params.patch_alias)
    (hg : genValues rows cols v.patch_params.patch_alias
      v.patch_params.select_all_from = .ok vals) :
    patchGo rows cols ra (some 0) (v :: rest) patched adj =
      patchGo rows cols ra (some 0) rest
        (pyTake patched (0 + a - adj) ++ ' ' :: vals ++ pyDrop patched (0 + b - adj))
        (adj + ((0 + b - (0 + a)) - ((vals.length : Int) + 1))) := by
  unfold patchGo
  rw [hp]
  dsimp only
  rw [if_neg (by
    rintro ⟨h1, h2⟩
    rw [hcols h1] at h2
    simp at h2)]
  rw [hg, excBind_ok]
  have hstep : aliasRewriteStep ra v.patch_params
      (pyTake patched (0 + a - adj) ++ ' ' :: vals ++ pyDrop patched (0 + b - adj)) =
      .ok (pyTake patched (0 + a - adj) ++ ' ' :: vals ++ pyDrop patched (0 + b - adj)) := by
    unfold aliasRewriteStep
    rw [if_neg (by
      rintro ⟨_, _, hne⟩
      exact hne horig)]
  rw [hstep, excBind_ok]
  cases rest <;> rfl

/-- The `Renderer.patch` wrapper over the whole-text renderer with a
selector: reduces to the patch loop at offset 0 and repackages the result
text and adjusted bounds. -/
theorem patch_whole (text : List Char) (rows : List (List PyVal))
    (cols : Option (List (List Char))) (ra : Bool) (vs : List View)
    (resT : List Char) (resAdj : Int)
    (hgo : patchGo rows cols ra (some 0) vs text 0 = .ok (resT, resAdj)) :
    (Renderer.mk ⟨none, text, text⟩
        [⟨0, (text.length : Int), none, PatchParams.make none false none⟩]).patch
        false (some vs) rows cols ra =
      .ok ⟨⟨none, resT, resT⟩,
        [⟨0, (text.length : Int) - resAdj, none, PatchParams.make none false none⟩]⟩ := by
  unfold Renderer.patch
  have hsql : (Renderer.mk ⟨none, text, text⟩
      [⟨0, (text.length : Int), none, PatchParams.make none false none⟩]).sql_view =
      .ok text := by
    simp [Renderer.sql_view, Renderer.view, Renderer.raw, pySlice_whole]
  have hview : (Renderer.mk ⟨none, text, text⟩
      [⟨0, (text.length : Int), none, PatchParams.make none false none⟩]).view =
      .ok ⟨0, (text.length : Int), none, PatchParams.make none false none⟩ := by
    simp [Renderer.view]
  rw [hsql]
  try (dsimp only)
  rw [hview]
  try (dsimp only)
  rw [show (Renderer.mk ⟨none, text, text⟩
      [⟨0, (text.length : Int), none, PatchParams.make none false none⟩]).raw = text from rfl]
  simp only [excBind_ok, pure_bind]
  rw [hgo, excBind_ok]
  rfl

theorem take_append_append {α : Type} (pre mid post : List α) (k : Nat) :
    (pre ++ mid ++ post).take (pre.length + mid.length + k) = pre ++ mid ++ post.take k := by
  rw [List.append_assoc, Nat.add_assoc, List.take_append, List.take_append,
    ← List.append_assoc]

theorem drop_append_append {α : Type} (pre mid post : List α) (k : Nat) :
    (pre ++ mid ++ post).drop (pre.length + mid.length + k) = post.drop k := by
  rw [List.append_assoc, Nat.add_assoc, List.drop_append, List.drop_append]

/-- C1: on a whole-text renderer, the patch loop applies all replacements to
the original text in ascending order with a running length delta, inserting
a single space before each generated VALUES expression.  For two disjoint
patch ranges `[A1,B1)` and `[A2,B2)` the one-pass result splices
`' ' :: vals1` and `' ' :: vals2` into the original text (first conjunct),
each being literally the same substitution text as the corresponding
independent single-view pass produces (second and third conjuncts), and the
final text's length is the original length plus the sum of the per-match
length deltas (fourth conjunct). -/
theorem c1_patch_offset_adjustment (text : List Char) (rows : List (List PyVal))
    (cols : Option (List (List Char))) (ra : Bool) (v1 v2 : View)
    (A1 B1 A2 B2 : Nat) (vals1 vals2 : List Char)
    (hp1 : v1.patch = some ((A1 : Int), (B1 : Int)))
    (hp2 : v2.patch = some ((A2 : Int), (B2 : Int)))
    (h12 : A1 ≤ B1) (h23 : B1 ≤ A2) (h34 : A2 ≤ B2) (h45 : B2 ≤ text.length)
    (hcols1 : truthyOpt v1.patch_params.patch_alias = true → truthyCols cols = true)
    (hcols2 : truthyOpt v2.patch_params.patch_alias = true → truthyCols cols = true)
    (horig1 : v1.patch_params.orig_alias = v1.patch_params.patch_alias)
    (horig2 : v2.patch_params.orig_alias = v2.patch_params.patch_alias)
    (hg1 : genValues rows cols v1.patch_params.patch_alias
      v1.patch_params.select_all_from = .ok vals1)
    (hg2 : genValues rows cols v2.patch_params.patch_alias
      v2.patch_params.select_all_from = .ok vals2) :
    ((Renderer.mk ⟨none, text, text⟩
        [⟨0, (text.length : Int), none, PatchParams.make none false none⟩]).patch
        false (some [v1, v2]) rows cols ra =
      .ok ⟨⟨none,
          text.take A1 ++ ' ' :: vals1 ++ (text.drop B1).take (A2 - B1) ++
            ' ' :: vals2 ++ text.drop B2,
          text.take A1 ++ ' ' :: vals1 ++ (text.drop B1).take (A2 - B1) ++
            ' ' :: vals2 ++ text.drop B2⟩,
        [⟨0, (text.length : Int) -
            (((B1 : Int) - (A1 : Int) - ((vals1.length : Int) + 1)) +
              ((B2 : Int) - (A2 : Int) - ((vals2.length : Int) + 1))), none,
          PatchParams.make none false none⟩]⟩) ∧
    ((Renderer.mk ⟨none, text, text⟩
        [⟨0, (text.length : Int), none, PatchParams.make none false none⟩]).patch
        false (some [v1]) rows cols ra =
      .ok ⟨⟨none, text.take A1 ++ ' ' :: vals1 ++ text.drop B1,
          text.take A1 ++ ' ' :: vals1 ++ text.drop B1⟩,
        [⟨0, (text.length : Int) - ((B1 : Int) - (A1 : Int) - ((vals1.length : Int) + 1)),
          none, PatchParams.make none false none⟩]⟩) ∧
    ((Renderer.mk ⟨none, text, text⟩
        [⟨0, (text.length : Int), none, PatchParams.make none false none⟩]).patch
        false (some [v2]) rows cols ra =
      .ok ⟨⟨none, text.take A2 ++ ' ' :: vals2 ++ text.drop B2,
          text.take A2 ++ ' ' :: vals2 ++ text.drop B2⟩,
        [⟨0, (text.length : Int) - ((B2 : Int) - (A2 : Int) - ((vals2.length : Int) + 1)),
          none, PatchParams.make none false none⟩]⟩) ∧
    (((text.take A1 ++ ' ' :: vals1 ++ (text.drop B1).take (A2 - B1) ++
        ' ' :: vals2 ++ text.drop B2).length : Int) =
      (text.length : Int) + (((vals1.length : Int) + 1) - ((B1 : Int) - (A1 : Int))) +
        (((vals2.length : Int) + 1) - ((B2 : Int) - (A2 : Int)))) := by
  have hA1 : A1 ≤ text.length := le_trans h12 (le_trans h23 (le_trans h34 h45))
  have hsplice1 : pyTake text (0 + (A1 : Int) - 0) ++ ' ' :: vals1 ++
      pyDrop text (0 + (B1 : Int) - 0) =
      text.take A1 ++ ' ' :: vals1 ++ text.drop B1 := by
    rw [show (0 : Int) + (A1 : Int) - 0 = ((A1 : Nat) : Int) from by omega,
      show (0 : Int) + (B1 : Int) - 0 = ((B1 : Nat) : Int) from by omega,
      pyTake_natCast, pyDrop_natCast]
  have hsplice3 : pyTake text (0 + (A2 : Int) - 0) ++ ' ' :: vals2 ++
      pyDrop text (0 + (B2 : Int) - 0) =
      text.take A2 ++ ' ' :: vals2 ++ text.drop B2 := by
    rw [show (0 : Int) + (A2 : Int) - 0 = ((A2 : Nat) : Int) from by omega,
      show (0 : Int) + (B2 : Int) - 0 = ((B2 : Nat) : Int) from by omega,
      pyTake_natCast, pyDrop_natCast]
  have hadj1 : (0 : Int) + (0 + (B1 : Int) - (0 + (A1 : Int)) - ((vals1.length : Int) + 1)) =
      (B1 : Int) - (A1 : Int) - ((vals1.length : Int) + 1) := by ring
  have hadj3 : (0 : Int) + (0 + (B2 : Int) - (0 + (A2 : Int)) - ((vals2.length : Int) + 1)) =
      (B2 : Int) - (A2 : Int) - ((vals2.length : Int) + 1) := by ring
  have hadj2 : ((B1 : Int) - (A1 : Int) - ((vals1.length : Int) + 1)) +
      (0 + (B2 : Int) - (0 + (A2 : Int)) - ((vals2.length : Int) + 1)) =
      ((B1 : Int) - (A1 : Int) - ((vals1.length : Int) + 1)) +
        ((B2 : Int) - (A2 : Int) - ((vals2.length : Int) + 1)) := by ring
  have hdd : (text.drop B1).drop (B2 - B1) = text.drop B2 := by
    rw [List.drop_drop]
    congr 1
    omega
  have hsplice2 : pyTake (text.take A1 ++ ' ' :: vals1 ++ text.drop B1)
      (0 + (A2 : Int) - ((B1 : Int) - (A1 : Int) - ((vals1.length : Int) + 1))) ++
      ' ' :: vals2 ++
      pyDrop (text.take A1 ++ ' ' :: vals1 ++ text.drop B1)
        (0 + (B2 : Int) - ((B1 : Int) - (A1 : Int) - ((vals1.length : Int) + 1))) =
      text.take A1 ++ ' ' :: vals1 ++ (text.drop B1).take (A2 - B1) ++
        ' ' :: vals2 ++ text.drop B2 := by
    rw [show (0 : Int) + (A2 : Int) - ((B1 : Int) - (A1 : Int) - ((vals1.length : Int) + 1)) =
        ((A1 + (vals1.length + 1) + (A2 - B1) : Nat) : Int) from by omega,
      show (0 : Int) + (B2 : Int) - ((B1 : Int) - (A1 : Int) - ((vals1.length : Int) + 1)) =
        ((A1 + (vals1.length + 1) + (B2 - B1) : Nat) : Int) from by omega,
      pyTake_natCast, pyDrop_natCast]
    rw [show A1 + (vals1.length + 1) + (A2 - B1) =
        (text.take A1).length + (' ' :: vals1).length + (A2 - B1) from by
      simp only [List.length_take, List.length_cons]; omega]
    rw [show A1 + (vals1.length + 1) + (B2 - B1) =
        (text.take A1).length + (' ' :: vals1).length + (B2 - B1) from by
      simp only [List.length_take, List.length_cons]; omega]
    rw [take_append_append, drop_append_append, hdd]
  have hgo12 : patchGo rows cols ra (some 0) [v1, v2] text 0 =
      .ok (text.take A1 ++ ' ' :: vals1 ++ (text.drop B1).take (A2 - B1) ++
          ' ' :: vals2 ++ text.drop B2,
        ((B1 : Int) - (A1 : Int) - ((vals1.length : Int) + 1)) +
          ((B2 : Int) - (A2 : Int) - ((vals2.length : Int) + 1))) := by
    rw [patchGo_cons rows cols ra v1 [v2] text 0 _ _ vals1 hp1 hcols1 horig1 hg1,
      hsplice1, hadj1,
      patchGo_cons rows cols ra v2 []
        (text.take A1 ++ ' ' :: vals1 ++ text.drop B1)
        ((B1 : Int) - (A1 : Int) - ((vals1.length : Int) + 1)) _ _ vals2 hp2 hcols2
        horig2 hg2,
      hsplice2, hadj2]
    rfl
  have hgo1 : patchGo rows cols ra (some 0) [v1] text 0 =
      .ok (text.take A1 ++ ' ' :: vals1 ++ text.drop B1,
        (B1 : Int) - (A1 : Int) - ((vals1.length : Int) + 1)) := by
    rw [patchGo_cons rows cols ra v1 [] text 0 _ _ vals1 hp1 hcols1 horig1 hg1,
      hsplice1, hadj1]
    rfl
  have hgo2 : patchGo rows cols ra (some 0) [v2] text 0 =
      .ok (text.take A2 ++ ' ' :: vals2 ++ text.drop B2,
        (B2 : Int) - (A2 : Int) - ((vals2.length : Int) + 1)) := by
    rw [patchGo_cons rows cols ra v2 [] text 0 _ _ vals2 hp2 hcols2 horig2 hg2,
      hsplice3, hadj3]
    rfl
  refine ⟨patch_whole text rows cols ra [v1, v2] _ _ hgo12,
    patch_whole text rows cols ra [v1] _ _ hgo1,
    patch_whole text rows cols ra [v2] _ _ hgo2, ?_⟩
  simp only [List.length_append, List.length_cons, List.length_take, List.length_drop]
  omega

theorem c1_patch_offset_adjustment_witness :
    (Renderer.mk ⟨none, "0123456789".data, "0123456789".data⟩
        [⟨0, ("0123456789".data.length : Int), none, PatchParams.make none false none⟩]).patch
        false
        (some [⟨0, 0, some (((2 : Nat) : Int), ((4 : Nat) : Int)),
            PatchParams.make none false none⟩,
          ⟨0, 0, some (((6 : Nat) : Int), ((8 : Nat) : Int)),
            PatchParams.make none false none⟩])
        [[PyVal.vInt 1]] none false =
      .ok ⟨⟨none, "01 VALUES (1)45 VALUES (1)89".data, "01 VALUES (1)45 VALUES (1)89".data⟩,
        [⟨0, 28, none, PatchParams.make none false none⟩]⟩ :=
  ((c1_patch_offset_adjustment "0123456789".data [[PyVal.vInt 1]] none false
    ⟨0, 0, some (((2 : Nat) : Int), ((4 : Nat) : Int)), PatchParams.make none false none⟩
    ⟨0, 0, some (((6 : Nat) : Int), ((8 : Nat) : Int)), PatchParams.make none false none⟩
    2 4 6 8 "VALUES (1)".data "VALUES (1)".data rfl rfl (by decide) (by decide)
    (by decide) (by decide) (by decide) (by decide) rfl rfl rfl rfl).1).trans (by rfl)

end Pgmock
